import Mathlib

/-!
Shallow embedding of the collision-detection core of `collision-quest`
(`src/utils/collision.ts`, first revision, lines 1-750, together with the
`Vector2` class from `src/utils/vector.ts`).

Numeric model.  The source computes with IEEE doubles; the embedding uses
exact rationals (`ℚ`).  Three systematic representation choices are used,
each noted where it occurs:

* Euclidean lengths (`Vector2.length`, i.e. square roots) are carried as
  their squares.  Every comparison the source makes between two lengths, or
  between a length and a nonnegative bound, is equivalent to the same
  comparison between the squares, because `Real.sqrt` is monotone on
  nonnegative inputs.  Helper predicates (`sqrtLt`, `sqrtLe`) and small
  symbolic value types (`SDist`, `SRVal`) spell out the equivalences for the
  mixed comparisons (signed distances `q / sqrt L`, `Infinity` sentinels).
* JavaScript `Infinity` / `-Infinity` initialisers for running minima and
  maxima are modelled by `⊤` / `⊥` of `ERat := WithBot (WithTop ℚ)` (for the
  AABB code, which genuinely stores them) or by the `inf` / `negInf`
  constructors of the symbolic value types.
* `Math.cos` / `Math.sin` are transcendental and have no rational embedding;
  they enter only through `transformPoints`.  They are taken as explicit
  function parameters `mcos msin : ℚ → ℚ`; theorems about rotation `0`
  assume `mcos 0 = 1` and `msin 0 = 0`, which are the only values of the
  trig functions the verified claims exercise.
-/

namespace CollisionQuest

/-- 2D vector, `Vector2` from `src/utils/vector.ts` (components are doubles
in the source, exact rationals here). -/
structure Vec where
  x : ℚ
  y : ℚ
deriving DecidableEq, Repr

namespace Vec

def add (a b : Vec) : Vec := ⟨a.x + b.x, a.y + b.y⟩

def sub (a b : Vec) : Vec := ⟨a.x - b.x, a.y - b.y⟩

def scale (a : Vec) (s : ℚ) : Vec := ⟨a.x * s, a.y * s⟩

def dot (a b : Vec) : ℚ := a.x * b.x + a.y * b.y

def negate (a : Vec) : Vec := ⟨-a.x, -a.y⟩

/-- Square of `Vector2.length()`; the source's `length()` is
`Math.sqrt(x*x + y*y)` and is only ever used in comparisons and in
normalisations, both of which are expressed through this square. -/
def lengthSq (a : Vec) : ℚ := a.x * a.x + a.y * a.y

end Vec

/-- `sqrt aSq < b` for `aSq ≥ 0`: a nonnegative square root is below `b`
iff `b` is positive and `aSq < b²`. -/
def sqrtLt (aSq b : ℚ) : Bool := decide (0 < b) && decide (aSq < b * b)

/-- `sqrt aSq ≤ b` for `aSq ≥ 0`. -/
def sqrtLe (aSq b : ℚ) : Bool := decide (0 ≤ b) && decide (aSq ≤ b * b)

/-- `CollisionConfig` from the source. -/
structure CollisionConfig where
  collisionThreshold : ℚ
  epsilon : ℚ
  maxIterations : ℕ
  useBroadPhase : Bool
deriving DecidableEq, Repr

/-- `defaultConfig`: threshold 0.1, epsilon 1e-6, 32 GJK iterations,
broad phase on. -/
def defaultConfig : CollisionConfig :=
  { collisionThreshold := 1/10
    epsilon := 1/1000000
    maxIterations := 32
    useBroadPhase := true }

/-- `CollisionResult` from the source (`collisionPoint?` is an optional
field, modelled by `Option`). -/
structure CollisionResult where
  colliding : Bool
  debug : List String
  collisionPoint : Option Vec
deriving DecidableEq, Repr

/-- `Shape`: local-space vertex list, world position, rotation (radians). -/
structure Shape where
  points : List Vec
  position : Vec
  rotation : ℚ
deriving DecidableEq, Repr

/-- `transformPoints`: rotate each local vertex by the shape's rotation and
translate by its position.  `mcos`/`msin` stand for `Math.cos`/`Math.sin`
(see the header note). -/
def transformPoints (mcos msin : ℚ → ℚ) (shape : Shape) : List Vec :=
  shape.points.map fun p =>
    let rx := p.x * mcos shape.rotation - p.y * msin shape.rotation
    let ry := p.x * msin shape.rotation + p.y * mcos shape.rotation
    Vec.mk (rx + shape.position.x) (ry + shape.position.y)

/-- Extended rationals `ℚ ∪ {-Infinity, Infinity}`, the value space of the
AABB code, whose accumulators start at `Infinity`/`-Infinity`. -/
abbrev ERat := WithBot (WithTop ℚ)

/-- Embed a rational coordinate into `ERat`. -/
def ERat.ofQ (q : ℚ) : ERat := ((q : WithTop ℚ) : ERat)

/-- Axis-aligned bounding box (`AABB` in the source).  Coordinates live in
`ERat` because the source initialises them to `±Infinity` (the AABB of an
empty vertex list keeps those sentinels). -/
structure AABB where
  minX : ERat
  minY : ERat
  maxX : ERat
  maxY : ERat
deriving DecidableEq

/-- AABB of a list of world-space points: fold `Math.min`/`Math.max` from
`Infinity`/`-Infinity`, exactly as `computeAABB`'s loop does (the source's
single loop over points updating four accumulators is split into one fold
per accumulator; the folds apply the same operations in the same order). -/
def aabbOfPoints (points : List Vec) : AABB :=
  { minX := points.foldl (fun m p => min m (ERat.ofQ p.x)) ⊤
    minY := points.foldl (fun m p => min m (ERat.ofQ p.y)) ⊤
    maxX := points.foldl (fun m p => max m (ERat.ofQ p.x)) ⊥
    maxY := points.foldl (fun m p => max m (ERat.ofQ p.y)) ⊥ }

/-- `computeAABB`: AABB of the transformed (world-space) vertices. -/
def computeAABB (mcos msin : ℚ → ℚ) (shape : Shape) : AABB :=
  aabbOfPoints (transformPoints mcos msin shape)

/-- `aabbOverlap`: interval overlap on both axes, non-strict comparisons. -/
def aabbOverlap (a b : AABB) : Bool :=
  decide (a.minX ≤ b.maxX) && decide (a.maxX ≥ b.minX) &&
  decide (a.minY ≤ b.maxY) && decide (a.maxY ≥ b.minY)

/-! ## Sweep and Prune broad phase -/

/-- One entry of `SweepAndPrune.intervals`: a shape together with the x-range
of its AABB, captured at `insert` time. -/
structure Interval where
  shape : Shape
  minX : ERat
  maxX : ERat
deriving DecidableEq

/-- `SweepAndPrune.insert`: push the shape with its AABB x-interval. -/
def sapInsert (mcos msin : ℚ → ℚ) (intervals : List Interval) (s : Shape) :
    List Interval :=
  intervals ++ [⟨s, (computeAABB mcos msin s).minX, (computeAABB mcos msin s).maxX⟩]

/-- Inserting a whole list of shapes into a fresh `SweepAndPrune`. -/
def sapInsertAll (mcos msin : ℚ → ℚ) (shapes : List Shape) : List Interval :=
  shapes.map fun s =>
    ⟨s, (computeAABB mcos msin s).minX, (computeAABB mcos msin s).maxX⟩

/-- The sweep of `getPairs`: walk the (sorted) intervals keeping an `active`
list; for each `current`, first evict active entries whose `maxX` precedes
`current.minX` (the source's backwards `splice` loop removes exactly those
entries, preserving the order of the rest, which `filter` also does), then
emit a pair for every surviving active entry whose full AABB overlaps
`current`'s, and finally append `current` to `active`. -/
def sweep (mcos msin : ℚ → ℚ) : List Interval → List Interval → List (Shape × Shape)
  | _, [] => []
  | active, c :: rest =>
    let active2 := active.filter fun e => !(decide (e.maxX < c.minX))
    let newPairs := active2.filterMap fun o =>
      if aabbOverlap (computeAABB mcos msin c.shape) (computeAABB mcos msin o.shape)
      then some (c.shape, o.shape) else none
    newPairs ++ sweep mcos msin (active2 ++ [c]) rest

/-- Comparator of `getPairs`' sort: ascending AABB `minX`.  The source sorts
with `(a, b) => a.minX - b.minX`; JavaScript's `Array.prototype.sort` is
stable, which `List.insertionSort` also is. -/
def intervalLE (a b : Interval) : Prop := a.minX ≤ b.minX

instance : DecidableRel intervalLE := fun a b =>
  inferInstanceAs (Decidable (a.minX ≤ b.minX))

instance : IsTotal Interval intervalLE := ⟨fun a b => le_total a.minX b.minX⟩

instance : IsTrans Interval intervalLE := ⟨fun _ _ _ h h' => le_trans h h'⟩

/-- `SweepAndPrune.getPairs`: sort by `minX` and sweep. -/
def getPairs (mcos msin : ℚ → ℚ) (intervals : List Interval) : List (Shape × Shape) :=
  sweep mcos msin [] (List.insertionSort intervalLE intervals)

/-! ## Closest-point helpers -/

/-- The directed edge list of a polygon: vertex `j` to vertex `(j+1) % n`,
as both inner loops of `findClosestPoint` (and every other edge walk in the
source) enumerate it. -/
def edges (ps : List Vec) : List (Vec × Vec) :=
  (List.range ps.length).map fun j =>
    (ps.getD j ⟨0, 0⟩, ps.getD ((j + 1) % ps.length) ⟨0, 0⟩)

/-- Midpoint of two points, the contact-point estimate the source builds as
`{x: (a.x+b.x)/2, y: (a.y+b.y)/2}` (or `a.add(b).scale(0.5)`). -/
def midpoint (a b : Vec) : Vec := ⟨(a.x + b.x) / 2, (a.y + b.y) / 2⟩

/-- One vertex/edge step of `findClosestPoint`.  The accumulator carries the
running `minDistance` (as a squared value in `ERat`, `⊤` = `Infinity`) and
the current `closestPoint`.  The source works with the normalised edge: its
`projection = (p1-p2)·ê` satisfies `projection ≤ 0 ↔ (p1-p2)·e ≤ 0` and
`projection ≥ |e| ↔ (p1-p2)·e ≥ |e|²`, and its interior closest point
`p2 + ê·projection` equals `p2 + e·((p1-p2)·e / |e|²)`; distances are
compared through their squares. -/
def fcpStep (config : CollisionConfig) (p1 : Vec) (acc : ERat × Vec)
    (e : Vec × Vec) : ERat × Vec :=
  let p2 := e.1
  let p2Next := e.2
  let edge := p2Next.sub p2
  if sqrtLt edge.lengthSq config.epsilon then acc  -- skip degenerate edges
  else
    let proj := (p1.sub p2).dot edge
    let closestOnEdge :=
      if proj ≤ 0 then p2
      else if proj ≥ edge.lengthSq then p2Next
      else p2.add (edge.scale (proj / edge.lengthSq))
    let distSq := (p1.sub closestOnEdge).lengthSq
    if ERat.ofQ distSq < acc.1 then (ERat.ofQ distSq, midpoint p1 closestOnEdge)
    else acc

/-- `findClosestPoint`: scan all vertices of shape 1 against all edges of
shape 2, then all vertices of shape 2 against all edges of shape 1, keeping
the pair of smallest distance; return the midpoint of that pair (`(0,0)`
when nothing updates the initial accumulator). -/
def findClosestPoint (points1 points2 : List Vec) (config : CollisionConfig) : Vec :=
  let acc1 := points1.foldl
    (fun acc p1 => (edges points2).foldl (fcpStep config p1) acc) (⊤, ⟨0, 0⟩)
  let acc2 := points2.foldl
    (fun acc p2 => (edges points1).foldl (fcpStep config p2) acc) acc1
  acc2.2

/-- `getClosestPointOnLineSegment`: clamp the projection parameter to `[0,1]`
(degenerate segments answer `lineStart`).  `t = (point-s)·line / (len*len)`
is rational since `len * len = |line|²`. -/
def getClosestPointOnLineSegment (point lineStart lineEnd : Vec)
    (config : CollisionConfig) : Vec :=
  let line := lineEnd.sub lineStart
  if sqrtLt line.lengthSq config.epsilon then lineStart
  else
    let t := max 0 (min 1 ((point.sub lineStart).dot line / line.lengthSq))
    lineStart.add (line.scale t)

/-! ## Symbolic distance values

The Lin-Canny and V-Clip bookkeeping mixes `Infinity`, `-Infinity`,
absolute distances `sqrt d` and signed distances `q / sqrt L` (a normalised
normal's dot product, `q < 0 < L` at every construction site).  `SDist`
represents these values exactly; its comparison functions implement the
real-number comparisons through squares (valid because the represented
reals keep the stated sign invariants). -/

/-- Exact representation of the distance-like reals the source manipulates:
`negInf`/`inf` are the `±Infinity` sentinels, `sq d` is `sqrt d` (`d ≥ 0`),
`qdiv q L` is `q / sqrt L` (constructed only with `q < 0 < L`). -/
inductive SDist
  | negInf
  | qdiv (q L : ℚ)
  | sq (d : ℚ)
  | inf
deriving DecidableEq, Repr

/-- Strict `<` on represented values.  For `qdiv`: with `q₁, q₂ < 0` and
`L₁, L₂ > 0`, `q₁/√L₁ < q₂/√L₂ ↔ q₁√L₂ < q₂√L₁`, and squaring the two
negative sides flips the inequality: `q₂²L₁ < q₁²L₂`.  A `qdiv` value is
negative, hence below every `sq` value (nonnegative) and below `inf`. -/
def SDist.blt : SDist → SDist → Bool
  | _, .negInf => false
  | .negInf, _ => true
  | .qdiv q1 L1, .qdiv q2 L2 => decide (q2 * q2 * L1 < q1 * q1 * L2)
  | .qdiv _ _, _ => true
  | .sq _, .qdiv _ _ => false
  | .sq d1, .sq d2 => decide (d1 < d2)
  | .sq _, .inf => true
  | .inf, _ => false

/-- Represented value `< t` for a rational `t` (the collision threshold).
A `qdiv` value is negative, hence below any `t ≥ 0`; against `t < 0`,
`q/√L < t ↔ q < t√L`, and squaring the negative sides gives `t²L < q²`. -/
def SDist.bltQ : SDist → ℚ → Bool
  | .negInf, _ => true
  | .qdiv q L, t => if 0 ≤ t then true else decide (t * t * L < q * q)
  | .sq d, t => sqrtLt d t
  | .inf, _ => false

/-! ## Point-in-polygon (ray crossing, even-odd rule) -/

/-- `isInside` from `linCanny`: even-odd ray-crossing test.  The loop header
`for (i = 0, j = n-1; i < n; j = i++)` pairs index `i` with its predecessor
`j = (i + n - 1) % n`.  The division by `b.y - a.y` sits behind the
short-circuited crossing guard, which forces `a.y ≠ b.y` whenever it is
reached (in ℚ the expression is total anyway). -/
def isInside (point : Vec) (polygon : List Vec) : Bool :=
  let n := polygon.length
  (List.range n).foldl
    (fun inside i =>
      let a := polygon.getD i ⟨0, 0⟩
      let b := polygon.getD ((i + n - 1) % n) ⟨0, 0⟩
      let intersect :=
        (decide (a.y > point.y) != decide (b.y > point.y)) &&
        decide (point.x < (b.x - a.x) * (point.y - a.y) / (b.y - a.y) + a.x)
      if intersect then !inside else inside)
    false

/-- `containsPoint` from `vClip.checkContainment`: the same even-odd
ray-crossing loop as `isInside`, retraced from its own source text. -/
def containsPoint (p : Vec) (polygon : List Vec) : Bool :=
  let n := polygon.length
  (List.range n).foldl
    (fun inside i =>
      let xi := (polygon.getD i ⟨0, 0⟩).x
      let yi := (polygon.getD i ⟨0, 0⟩).y
      let xj := (polygon.getD ((i + n - 1) % n) ⟨0, 0⟩).x
      let yj := (polygon.getD ((i + n - 1) % n) ⟨0, 0⟩).y
      let intersect :=
        (decide (yi > p.y) != decide (yj > p.y)) &&
        decide (p.x < (xj - xi) * (p.y - yi) / (yj - yi) + xi)
      if intersect then !inside else inside)
    false

/-! ## Lin-Canny -/

/-- Result record of `checkLineIntersection`. -/
structure LineIntersect where
  intersects : Bool
  point : Option Vec
deriving DecidableEq, Repr

/-- `checkLineIntersection`: parametric segment-segment intersection with a
hard-coded `1e-6` parallelism guard (a literal in the source, not
`config.epsilon`). -/
def checkLineIntersection (a1 a2 b1 b2 : Vec) : LineIntersect :=
  let denominator :=
    (b2.y - b1.y) * (a2.x - a1.x) - (b2.x - b1.x) * (a2.y - a1.y)
  if |denominator| < 1/1000000 then ⟨false, none⟩
  else
    let ua := ((b2.x - b1.x) * (a1.y - b1.y) - (b2.y - b1.y) * (a1.x - b1.x)) / denominator
    let ub := ((a2.x - a1.x) * (a1.y - b1.y) - (a2.y - a1.y) * (a1.x - b1.x)) / denominator
    if 0 ≤ ua ∧ ua ≤ 1 ∧ 0 ≤ ub ∧ ub ≤ 1 then
      ⟨true, some ⟨a1.x + ua * (a2.x - a1.x), a1.y + ua * (a2.y - a1.y)⟩⟩
    else ⟨false, none⟩

/-- `linCanny`'s `closest` record. -/
structure LCClosest where
  distance : SDist
  signedDistance : SDist
  point : Option Vec
  type : String
deriving DecidableEq, Repr

/-- One inner step of `checkVertexEdges`.  The source's `edgeNormal` is the
normalised perpendicular `(-e.y, e.x).normalize()`; with `L = |e|²` its dot
with `toVertex` is `sdq / √L` where `sdq = toVertex · (-e.y, e.x)`, so
`signedDist < 0 ↔ sdq < 0 ∧ 0 < L` (a zero-length edge normalises to the
zero vector, making `signedDist = 0`). -/
def lcVertexEdgeStep (config : CollisionConfig) (vertex : Vec)
    (closest : LCClosest) (e : Vec × Vec) : LCClosest :=
  let edgeStart := e.1
  let edgeEnd := e.2
  let edgeVec := edgeEnd.sub edgeStart
  let nRaw : Vec := ⟨-edgeVec.y, edgeVec.x⟩
  let L := edgeVec.lengthSq
  let sdq := (vertex.sub edgeStart).dot nRaw
  let sdNeg := decide (sdq < 0) && decide (0 < L)
  let projection := getClosestPointOnLineSegment vertex edgeStart edgeEnd config
  let absSq := (vertex.sub projection).lengthSq
  if sdNeg || SDist.blt (.sq absSq) closest.distance then
    let effectiveDist : SDist := if sdNeg then .qdiv sdq L else .sq absSq
    if SDist.blt effectiveDist closest.signedDistance then
      { distance := .sq absSq
        signedDistance := effectiveDist
        point := some (midpoint projection vertex)
        type := if sdNeg then "Penetration" else "Proximity" }
    else closest
  else closest

/-- `checkVertexEdges`: every vertex against every edge, in source order. -/
def lcCheckVertexEdges (config : CollisionConfig) (vertices edgePts : List Vec)
    (closest : LCClosest) : LCClosest :=
  vertices.foldl
    (fun cl v => (edges edgePts).foldl (lcVertexEdgeStep config v) cl) closest

/-- `checkEdgePairs`: any intersecting edge pair overwrites `closest` with a
zero-distance, `-Infinity`-signed "Edge-Intersection" record (no comparison;
the last intersecting pair wins). -/
def lcCheckEdgePairs (points1 points2 : List Vec) (closest : LCClosest) : LCClosest :=
  (edges points1).foldl
    (fun cl ea =>
      (edges points2).foldl
        (fun cl2 eb =>
          let it := checkLineIntersection ea.1 ea.2 eb.1 eb.2
          if it.intersects then
            { distance := .sq 0
              signedDistance := .negInf
              point := it.point
              type := "Edge-Intersection" }
          else cl2)
        cl)
    closest

/-- The contained vertices `linCanny` collects: vertices of either polygon
lying inside the other. -/
def linCannyContained (points1 points2 : List Vec) : List Vec :=
  points1.filter (fun p => isInside p points2) ++
  points2.filter (fun p => isInside p points1)

/-- The `closest` state of `linCanny` after the containment check and (when
no containment was found) the vertex-edge and edge-pair scans. -/
def linCannyClosest (points1 points2 : List Vec) (config : CollisionConfig) :
    LCClosest :=
  let containedPoints := linCannyContained points1 points2
  let closest0 : LCClosest :=
    if containedPoints.length > 0 then
      { distance := .sq 0
        signedDistance := .negInf
        point := containedPoints.head?
        type := "Containment" }
    else { distance := .inf, signedDistance := .inf, point := none, type := "" }
  if closest0.type ≠ "Containment" then
    let c1 := lcCheckVertexEdges config points1 points2 closest0
    let c2 := lcCheckVertexEdges config points2 points1 c1
    lcCheckEdgePairs points1 points2 c2
  else closest0

/-- The final `Collision point: …` trace line.  The source renders the
coordinates with `toFixed(1)`; the numeric formatting is abstracted to exact
rational printing (no verified claim depends on this string). -/
def fmtClosestPointMsg (p : Option Vec) : String :=
  match p with
  | none => "Collision point: none"
  | some v => "Collision point: (" ++ toString v.x ++ ", " ++ toString v.y ++ ")"

/-- `linCanny` on world-space vertex lists: collision iff the closest signed
distance is below the threshold. -/
def linCannyCore (points1 points2 : List Vec) (config : CollisionConfig) :
    CollisionResult :=
  let closest := linCannyClosest points1 points2 config
  { colliding := SDist.bltQ closest.signedDistance config.collisionThreshold
    debug := ["Starting enhanced Lin-Canny algorithm"] ++
      (if (linCannyContained points1 points2).length > 0
       then ["Containment detected"] else []) ++
      [fmtClosestPointMsg closest.point]
    collisionPoint := closest.point }

/-- `linCanny`: transform both shapes and run the core. -/
def linCanny (mcos msin : ℚ → ℚ) (shapeA shapeB : Shape)
    (config : CollisionConfig) : CollisionResult :=
  linCannyCore (transformPoints mcos msin shapeA)
    (transformPoints mcos msin shapeB) config

/-! ## V-Clip -/

/-- `vClip`'s `closest` record. -/
structure VCClosest where
  distance : SDist
  point : Option Vec
  type : String
deriving DecidableEq, Repr

/-- The `Edge-Vertex (…)` type tag.  The source interpolates the distance
with `toFixed(2)`; the distance is irrational in general, so the tag carries
the exact squared distance instead (no verified claim reads this string). -/
def edgeVertexType (distSq : ℚ) : String :=
  "Edge-Vertex (sq " ++ toString distSq ++ ")"

/-- `vClip.checkContainment`: if any vertex of one polygon lies inside the
other, record a zero-distance containment `closest` (the source calls
`findClosestPoint` twice, once per coordinate, with identical arguments and
hence identical results). -/
def vcContainment (points1 points2 : List Vec) (config : CollisionConfig) :
    Option VCClosest :=
  if points1.any fun p => containsPoint p points2 then
    some { distance := .sq 0
           point := some (findClosestPoint points1 points2 config)
           type := "Containment (ShapeA in ShapeB)" }
  else if points2.any fun p => containsPoint p points1 then
    some { distance := .sq 0
           point := some (findClosestPoint points2 points1 config)
           type := "Containment (ShapeB in ShapeA)" }
  else none

/-- One vertex/edge step of `vClip.checkEdges.checkPairs`: clamp the vertex
onto the segment and keep the strictly smaller distance. -/
def vcPairStep (config : CollisionConfig) (vertex : Vec) (cl : VCClosest)
    (e : Vec × Vec) : VCClosest :=
  let projection := getClosestPointOnLineSegment vertex e.1 e.2 config
  let distSq := (vertex.sub projection).lengthSq
  if SDist.blt (.sq distSq) cl.distance then
    { distance := .sq distSq
      point := some (midpoint vertex projection)
      type := edgeVertexType distSq }
  else cl

/-- `vClip.checkEdges`: `checkPairs(points1, points2)` then
`checkPairs(points2, points1)`. -/
def vcCheckEdges (config : CollisionConfig) (points1 points2 : List Vec)
    (cl : VCClosest) : VCClosest :=
  let c1 := points1.foldl
    (fun c v => (edges points2).foldl (vcPairStep config v) c) cl
  points2.foldl (fun c v => (edges points1).foldl (vcPairStep config v) c) c1

/-- `vClip`'s `closest` state after the execution flow: containment check
first, vertex-edge scan only when no containment was found. -/
def vClipClosest (points1 points2 : List Vec) (config : CollisionConfig) :
    VCClosest :=
  match vcContainment points1 points2 config with
  | some cl => cl
  | none =>
    vcCheckEdges config points1 points2
      { distance := .inf, point := none, type := "" }

/-- The `Final collision point: …` trace line (`toFixed(2)` formatting
abstracted to exact rational printing). -/
def fmtFinalPointMsg (p : Option Vec) : String :=
  match p with
  | none => "Final collision point: none"
  | some v => "Final collision point: (" ++ toString v.x ++ ", " ++ toString v.y ++ ")"

/-- `vClip` on world-space vertex lists: collision iff the minimum recorded
distance is below the threshold. -/
def vClipCore (points1 points2 : List Vec) (config : CollisionConfig) :
    CollisionResult :=
  let closest := vClipClosest points1 points2 config
  { colliding := SDist.bltQ closest.distance config.collisionThreshold
    debug := ["Starting V-Clip algorithm", fmtFinalPointMsg closest.point]
    collisionPoint := closest.point }

/-- `vClip`: transform both shapes and run the core. -/
def vClip (mcos msin : ℚ → ℚ) (shapeA shapeB : Shape)
    (config : CollisionConfig) : CollisionResult :=
  vClipCore (transformPoints mcos msin shapeA)
    (transformPoints mcos msin shapeB) config

/-! ## GJK -/

/-- `tripleProduct`: `b·(a·c) - a·(b·c)`, the double-cross perpendicular
helper. -/
def tripleProduct (a b c : Vec) : Vec :=
  let ac := a.dot c
  let bc := b.dot c
  ⟨b.x * ac - a.x * bc, b.y * ac - a.y * bc⟩

/-- GJK `support`: the vertex with maximal dot product in the direction
(linear scan, strict `>` keeps the first maximiser; starts from the first
vertex, which the source reads unconditionally — callers in the verified
claims have nonempty vertex lists, the empty default `(0,0)` stands in for
the source's out-of-bounds read). -/
def support (points : List Vec) (dir : Vec) : Vec :=
  points.foldl
    (fun acc p => if p.dot dir > acc.dot dir then p else acc)
    (points.headD ⟨0, 0⟩)

/-- Minkowski-difference support point `support(A, d) - support(B, -d)`. -/
def getSupport (points1 points2 : List Vec) (dir : Vec) : Vec :=
  (support points1 dir).sub (support points2 dir.negate)

/-- `handleLine` as a pure state transformer: returns (enclosed?, simplex,
direction).  The degenerate and origin-on-line branches return without
touching the direction (the source only assigns `direction.copy(perp)` on
the main path).  `perp.length() === 0` is exact float equality, i.e.
`|perp|² = 0`; the endpoint checks `aLen ≤ abLen` compare square roots,
here their squares. -/
def handleLine (config : CollisionConfig) (simplex : List Vec) (dir : Vec) :
    Bool × List Vec × Vec :=
  let a := simplex.getD 1 ⟨0, 0⟩
  let b := simplex.getD 0 ⟨0, 0⟩
  let ab := b.sub a
  let ao := (Vec.mk 0 0).sub a
  if sqrtLt ab.lengthSq config.epsilon then
    (sqrtLe a.lengthSq config.epsilon, simplex, dir)
  else
    let perp := tripleProduct ab ao ab
    if perp.lengthSq = 0 then
      (decide (a.lengthSq ≤ ab.lengthSq) && decide (b.lengthSq ≤ ab.lengthSq),
        simplex, dir)
    else
      (false, simplex, perp)

/-- `handleTriangle`: drop the vertex opposite an edge the origin lies
outside of (`splice(0,1)` removes `c = simplex[0]`, `splice(1,1)` removes
`b = simplex[1]`) and point the search at that edge's perpendicular;
origin inside both edges means enclosure.  (The source's `handleTriangle`
also takes a config parameter it never reads.) -/
def handleTriangle (_config : CollisionConfig) (simplex : List Vec) (dir : Vec) :
    Bool × List Vec × Vec :=
  let a := simplex.getD 2 ⟨0, 0⟩
  let b := simplex.getD 1 ⟨0, 0⟩
  let c := simplex.getD 0 ⟨0, 0⟩
  let ab := b.sub a
  let ac := c.sub a
  let ao := (Vec.mk 0 0).sub a
  let abPerp := tripleProduct ac ab ab
  let acPerp := tripleProduct ab ac ac
  if abPerp.dot ao > 0 then
    (false, simplex.eraseIdx 0, abPerp)
  else if acPerp.dot ao > 0 then
    (false, simplex.eraseIdx 1, acPerp)
  else
    (true, simplex, dir)

/-- `handleSimplex`: dispatch on the simplex size. -/
def handleSimplex (config : CollisionConfig) (simplex : List Vec) (dir : Vec) :
    Bool × List Vec × Vec :=
  if simplex.length = 2 then handleLine config simplex dir
  else if simplex.length = 3 then handleTriangle config simplex dir
  else (false, simplex, dir)

/-- The main GJK loop, recursing on the remaining iteration budget (the
source's `for (let i = 0; i < config.maxIterations; i++)`).  The source
calls `handleSimplex(simplex, direction)` without a config argument, so the
defaulted `defaultConfig` governs the degeneracy epsilons regardless of the
config `gjk` itself received; the call below passes `defaultConfig`
explicitly for the same effect.  (The source also tracks a `closestPoint` /
`minDistance` pair inside this loop; those locals are never read by any
return path and are omitted.) -/
def gjkLoop (points1 points2 : List Vec) (config : CollisionConfig) :
    ℕ → List Vec → Vec → List String → CollisionResult
  | 0, _, _, debug =>
    { colliding := false
      debug := debug ++ ["Max iterations reached"]
      collisionPoint := none }
  | fuel + 1, simplex, dir, debug =>
    let point := getSupport points1 points2 dir
    if point.dot dir ≤ 0 then
      { colliding := false
        debug := debug ++ ["No collision - point not past origin"]
        collisionPoint := none }
    else
      match handleSimplex defaultConfig (simplex ++ [point]) dir with
      | (true, _, _) =>
        { colliding := true
          debug := debug ++ ["Collision detected - origin enclosed by simplex"]
          collisionPoint := some (findClosestPoint points1 points2 config) }
      | (false, simplex2, dir2) =>
        gjkLoop points1 points2 config fuel simplex2 dir2 debug

/-- `gjk` on world-space points, after the broad-phase gate: seed the
simplex with the support in direction `(1,0)`, search towards the origin. -/
def gjkCore (points1 points2 : List Vec) (config : CollisionConfig) :
    CollisionResult :=
  let point := getSupport points1 points2 ⟨1, 0⟩
  gjkLoop points1 points2 config config.maxIterations [point] point.negate
    ["Starting GJK algorithm"]

/-- `gjk`: broad-phase AABB rejection (when enabled), then the core loop.
The source computes the AABBs from the shapes after having transformed the
points; `computeAABB` re-derives the same world-space points. -/
def gjk (mcos msin : ℚ → ℚ) (shapeA shapeB : Shape)
    (config : CollisionConfig) : CollisionResult :=
  if config.useBroadPhase &&
      !aabbOverlap (computeAABB mcos msin shapeA) (computeAABB mcos msin shapeB) then
    { colliding := false
      debug := ["Broad-phase: No AABB overlap"]
      collisionPoint := none }
  else
    gjkCore (transformPoints mcos msin shapeA)
      (transformPoints mcos msin shapeB) config

/-! ## SAT -/

/-- Running minimum-overlap value of `sat`: `inf` is the `Infinity`
initialiser, `val q L` is the normalised overlap `q / sqrt L` (`q ≥ 0` is
the overlap along the unnormalised axis, `L ≥ 0` the axis's squared length;
every constructed value has `q = 0` when `L = 0`, since a zero axis projects
everything to `0`). -/
inductive SRVal
  | inf
  | val (q L : ℚ)
deriving DecidableEq, Repr

/-- `q / sqrt L <` the represented value, under the invariants above.  For
two finite values with positive lengths, cross-multiplying the nonnegative
sides gives `q²L₂ < q₂²L₁`; a zero-length side represents the value `0`. -/
def srLt (q L : ℚ) : SRVal → Bool
  | .inf => true
  | .val q2 L2 =>
    if L = 0 then decide (0 < q2) && decide (0 < L2)
    else if L2 = 0 then false
    else decide (q * q * L2 < q2 * q2 * L)

/-- Return record of `sat`'s `project` (the `minPoint`/`maxPoint` fields are
computed by the source but never read by `sat`'s body; they are kept). -/
structure Projection where
  min : ℚ
  max : ℚ
  minPoint : Vec
  maxPoint : Vec
deriving DecidableEq, Repr

/-- `project`: scan the vertices, keeping the lowest and highest dot
products with the axis (strict comparisons, first extremum wins). -/
def project (points : List Vec) (axis : Vec) : Projection :=
  let p0 := points.headD ⟨0, 0⟩
  points.tail.foldl
    (fun pr p =>
      let projection := p.dot axis
      let pr1 :=
        if projection < pr.min then { pr with min := projection, minPoint := p }
        else pr
      if projection > pr1.max then { pr1 with max := projection, maxPoint := p }
      else pr1)
    { min := p0.dot axis, max := p0.dot axis, minPoint := p0, maxPoint := p0 }

/-- `getAxes`: one perpendicular per edge.  The source normalises each axis;
here the raw perpendicular `(-e.y, e.x)` is kept and its squared length
travels alongside wherever magnitudes matter: the gap and touch comparisons
of `sat` are invariant under scaling an axis by the positive factor
`1/|e|` (and a zero-length edge normalises to the zero vector, which equals
its raw perpendicular), while the cross-axis minimum-overlap comparison
divides by the length through `SRVal`. -/
def getAxes (points : List Vec) : List Vec :=
  (edges points).map fun e =>
    let edge := e.2.sub e.1
    ⟨-edge.y, edge.x⟩

/-- The axis loop of `sat`: stop with `colliding = false` at the first axis
whose projection intervals are strictly apart; otherwise track the minimum
normalised overlap (refreshing the contact-point estimate whenever it
improves) and declare collision after the last axis. -/
def satLoop (points1 points2 : List Vec) (config : CollisionConfig) :
    List Vec → SRVal → Option Vec → List String → CollisionResult
  | [], _, cp, debug =>
    { colliding := true
      debug := debug ++ ["No separating axis found - collision detected!"]
      collisionPoint := cp }
  | axis :: rest, minOverlap, cp, debug =>
    let projection1 := project points1 axis
    let projection2 := project points2 axis
    if projection1.max < projection2.min ∨ projection2.max < projection1.min then
      { colliding := false
        debug := debug ++ ["Gap found - no collision"]
        collisionPoint := none }
    else
      let overlap :=
        min (projection1.max - projection2.min) (projection2.max - projection1.min)
      if srLt overlap axis.lengthSq minOverlap then
        satLoop points1 points2 config rest (.val overlap axis.lengthSq)
          (some (findClosestPoint points1 points2 config)) debug
      else
        satLoop points1 points2 config rest minOverlap cp debug

/-- `sat` on world-space points, after the broad-phase gate: test the edge
normals of both polygons in order. -/
def satCore (points1 points2 : List Vec) (config : CollisionConfig) :
    CollisionResult :=
  satLoop points1 points2 config (getAxes points1 ++ getAxes points2) .inf none
    ["Starting SAT algorithm"]

/-- `sat`: broad-phase AABB rejection (when enabled), then the axis loop. -/
def sat (mcos msin : ℚ → ℚ) (shapeA shapeB : Shape)
    (config : CollisionConfig) : CollisionResult :=
  if config.useBroadPhase &&
      !aabbOverlap (computeAABB mcos msin shapeA) (computeAABB mcos msin shapeB) then
    { colliding := false
      debug := ["Broad-phase: No AABB overlap"]
      collisionPoint := none }
  else
    satCore (transformPoints mcos msin shapeA)
      (transformPoints mcos msin shapeB) config

/-! ## GJK loop instrumentation

A mirror of `gjkLoop`'s recursion that reports how many loop iterations
execute and whether the iteration budget ran out, used to state the
termination bound. -/

/-- Iterations executed and cap-exhaustion flag of the GJK loop, following
exactly the branching of `gjkLoop`. -/
def gjkLoopStats (points1 points2 : List Vec) : ℕ → List Vec → Vec → ℕ × Bool
  | 0, _, _ => (0, true)
  | fuel + 1, simplex, dir =>
    let point := getSupport points1 points2 dir
    if point.dot dir ≤ 0 then (1, false)
    else
      match handleSimplex defaultConfig (simplex ++ [point]) dir with
      | (true, _, _) => (1, false)
      | (false, simplex2, dir2) =>
        let rec_ := gjkLoopStats points1 points2 fuel simplex2 dir2
        (rec_.1 + 1, rec_.2)

/-- Loop iterations `gjk` executes on a shape pair (0 when the broad phase
rejects the pair before the loop starts). -/
def gjkIterations (mcos msin : ℚ → ℚ) (shapeA shapeB : Shape)
    (config : CollisionConfig) : ℕ :=
  if config.useBroadPhase &&
      !aabbOverlap (computeAABB mcos msin shapeA) (computeAABB mcos msin shapeB) then
    0
  else
    let points1 := transformPoints mcos msin shapeA
    let points2 := transformPoints mcos msin shapeB
    let point := getSupport points1 points2 ⟨1, 0⟩
    (gjkLoopStats points1 points2 config.maxIterations [point] point.negate).1

/-- Whether `gjk`'s loop ran out of its iteration budget. -/
def gjkHitsCap (mcos msin : ℚ → ℚ) (shapeA shapeB : Shape)
    (config : CollisionConfig) : Bool :=
  if config.useBroadPhase &&
      !aabbOverlap (computeAABB mcos msin shapeA) (computeAABB mcos msin shapeB) then
    false
  else
    let points1 := transformPoints mcos msin shapeA
    let points2 := transformPoints mcos msin shapeB
    let point := getSupport points1 points2 ⟨1, 0⟩
    (gjkLoopStats points1 points2 config.maxIterations [point] point.negate).2

/-! ## Specification-side definitions

Definitions below are written from the specification's words (spec.md §4.5
and the refinement claim about the closest-feature detectors), to be
compared with the source-derived definitions above. -/

/-- Spec side: the clamped vertex-to-edge squared distance — "project the
vertex onto the edge's supporting line, clamp the projection parameter to
[0,1] (i.e., to the segment), and compute the Euclidean distance from
vertex to that clamped point"; "degenerate edges (length < epsilon) are
skipped during projection". -/
def specVertexEdgeSq (config : CollisionConfig) (v : Vec) (e : Vec × Vec) :
    Option ℚ :=
  let d := e.2.sub e.1
  if sqrtLt d.lengthSq config.epsilon then none
  else
    let t := max 0 (min 1 ((v.sub e.1).dot d / d.lengthSq))
    some ((v.sub (e.1.add (d.scale t))).lengthSq)

/-- Spec side: "the global minimum such distance across all vertex/edge
pairs (checked in both polygon directions) … plus vertex-vertex distances"
— as a squared value in `ERat` (`⊤` when there are no pairs at all). -/
def specMinSepSq (points1 points2 : List Vec) (config : CollisionConfig) :
    ERat :=
  let ve :=
    (points1.flatMap fun v => (edges points2).filterMap (specVertexEdgeSq config v)) ++
    (points2.flatMap fun v => (edges points1).filterMap (specVertexEdgeSq config v))
  let vv := points1.flatMap fun v => points2.map fun w => (v.sub w).lengthSq
  ((ve ++ vv).map ERat.ofQ).foldr min ⊤

/-- Spec side: "the minimum separation is below `collisionThreshold`" for a
squared minimum `m`: `sqrt m < t ↔ 0 < t ∧ m < t²` (with `m = ⊤` never
below any threshold). -/
def specSepLt (m : ERat) (t : ℚ) : Prop := 0 < t ∧ m < ERat.ofQ (t * t)

instance (m : ERat) (t : ℚ) : Decidable (specSepLt m t) :=
  inferInstanceAs (Decidable (_ ∧ _))

/-- Code side, for comparison: the squared vertex-to-edge distance `vClip`'s
`checkPairs` computes for one pair. -/
def vcPairDistSq (config : CollisionConfig) (v : Vec) (e : Vec × Vec) : ℚ :=
  (v.sub (getClosestPointOnLineSegment v e.1 e.2 config)).lengthSq

/-- The gap test of one `sat` axis: the projection intervals are strictly
apart (the projections here are onto the unnormalised axis; the source's
normalisation scales both intervals by the same positive factor, which
preserves the comparison, and a zero axis yields `[0,0]` vs `[0,0]` under
both conventions). -/
def axGap (points1 points2 : List Vec) (axis : Vec) : Prop :=
  (project points1 axis).max < (project points2 axis).min ∨
  (project points2 axis).max < (project points1 axis).min

instance (points1 points2 : List Vec) (axis : Vec) :
    Decidable (axGap points1 points2 axis) :=
  inferInstanceAs (Decidable (_ ∨ _))

/-- Well-formedness of a `SweepAndPrune` interval: its cached x-range is the
x-range of its shape's AABB (true of every interval `insert` builds). -/
def IvWF (mcos msin : ℚ → ℚ) (iv : Interval) : Prop :=
  iv.minX = (computeAABB mcos msin iv.shape).minX ∧
  iv.maxX = (computeAABB mcos msin iv.shape).maxX

/-! ## Concrete instances used by witnesses and counterexamples -/

/-- Trig parameters for the rotation-0 instances: any functions with
`mcos 0 = 1`, `msin 0 = 0` serve; the constants do. -/
def mcosW : ℚ → ℚ := fun _ => 1

/-- See `mcosW`. -/
def msinW : ℚ → ℚ := fun _ => 0

/-- Local vertices of an axis-aligned unit square centred at the origin. -/
def unitSquarePts : List Vec :=
  [⟨-1/2, -1/2⟩, ⟨1/2, -1/2⟩, ⟨1/2, 1/2⟩, ⟨-1/2, 1/2⟩]

/-- Unit square centred at `(0,0)`, rotation 0. -/
def squareAt0 : Shape := ⟨unitSquarePts, ⟨0, 0⟩, 0⟩

/-- Unit square centred at `(3,0)`, rotation 0. -/
def squareAt3 : Shape := ⟨unitSquarePts, ⟨3, 0⟩, 0⟩

/-- Unit square centred at `(1/2,0)`, rotation 0 (overlaps `squareAt0`). -/
def squareAtHalf : Shape := ⟨unitSquarePts, ⟨1/2, 0⟩, 0⟩

/-- World-space vertices of the unit square centred at `(0,0)`. -/
def sqPts0 : List Vec := unitSquarePts

/-- World-space vertices of the unit square centred at `(3,0)`. -/
def sqPts3 : List Vec :=
  [⟨5/2, -1/2⟩, ⟨7/2, -1/2⟩, ⟨7/2, 1/2⟩, ⟨5/2, 1/2⟩]

/-- Shape with AABB x-interval `[0,2]` (y-interval `[0,1]`). -/
def sapShape02 : Shape := ⟨[⟨0, 0⟩, ⟨2, 1⟩], ⟨0, 0⟩, 0⟩

/-- Shape with AABB x-interval `[1,3]` (y-interval `[0,1]`). -/
def sapShape13 : Shape := ⟨[⟨1, 0⟩, ⟨3, 1⟩], ⟨0, 0⟩, 0⟩

/-- Shape with AABB x-interval `[5,7]` (y-interval `[0,1]`). -/
def sapShape57 : Shape := ⟨[⟨5, 0⟩, ⟨7, 1⟩], ⟨0, 0⟩, 0⟩

/-- Unit square `[0,1]²`, rotation 0. -/
def cornerSqA : Shape := ⟨[⟨0, 0⟩, ⟨1, 0⟩, ⟨1, 1⟩, ⟨0, 1⟩], ⟨0, 0⟩, 0⟩

/-- Unit square `[1,2]²` (touching `cornerSqA` only at the corner `(1,1)`),
rotation 0. -/
def cornerSqB : Shape := ⟨[⟨1, 1⟩, ⟨2, 1⟩, ⟨2, 2⟩, ⟨1, 2⟩], ⟨0, 0⟩, 0⟩

/-- Square `[-2,2]²`, fully containing the unit square at the origin. -/
def bigSquare : Shape := ⟨[⟨-2, -2⟩, ⟨2, -2⟩, ⟨2, 2⟩, ⟨-2, 2⟩], ⟨0, 0⟩, 0⟩

/-- Invariant of `vClip`'s fold state: the running distance is either the
`Infinity` sentinel or an absolute (square-represented) distance; it holds
at the initialiser and is preserved by every `checkPairs` step. -/
def VCok (cl : VCClosest) : Prop :=
  cl.distance = SDist.inf ∨ ∃ d, cl.distance = SDist.sq d

/-! ## Theorems -/

/-- C8: transforming a polygon's points with rotation 0 and position (0,0)
reproduces the original local vertex list exactly, value for value. -/
theorem transformPoints_identity (mcos msin : ℚ → ℚ) (h1 : mcos 0 = 1)
    (h2 : msin 0 = 0) (shape : Shape) (hrot : shape.rotation = 0)
    (hpos : shape.position = ⟨0, 0⟩) :
    transformPoints mcos msin shape = shape.points := by
  have hx : shape.position.x = 0 := by rw [hpos]
  have hy : shape.position.y = 0 := by rw [hpos]
  simp only [transformPoints, hrot, h1, h2, hx, hy, mul_one, mul_zero, sub_zero,
    add_zero, zero_add]
  exact List.map_id _

/-- Witness for C8 at a concrete one-vertex shape and constant trig
functions. -/
theorem transformPoints_identity_witness :
    transformPoints mcosW msinW (Shape.mk [⟨2, 5⟩] ⟨0, 0⟩ 0) = [⟨2, 5⟩] :=
  transformPoints_identity mcosW msinW rfl rfl _ rfl rfl

/-- C9: with broad phase enabled and disjoint AABBs, `gjk` and `sat` return
immediately with `colliding = false`, debug trace exactly
`["Broad-phase: No AABB overlap"]` and no collision point; `linCanny` and
`vClip` perform no such AABB pre-check (their results do not depend on the
`useBroadPhase` flag at all). -/
theorem broadPhase_reject (mcos msin : ℚ → ℚ) (shapeA shapeB : Shape)
    (config : CollisionConfig) (hb : config.useBroadPhase = true)
    (hov : aabbOverlap (computeAABB mcos msin shapeA)
      (computeAABB mcos msin shapeB) = false) :
    gjk mcos msin shapeA shapeB config =
      ⟨false, ["Broad-phase: No AABB overlap"], none⟩ ∧
    sat mcos msin shapeA shapeB config =
      ⟨false, ["Broad-phase: No AABB overlap"], none⟩ ∧
    (∀ b, linCanny mcos msin shapeA shapeB { config with useBroadPhase := b } =
      linCanny mcos msin shapeA shapeB config) ∧
    (∀ b, vClip mcos msin shapeA shapeB { config with useBroadPhase := b } =
      vClip mcos msin shapeA shapeB config) := by
  refine ⟨?_, ?_, fun b => rfl, fun b => rfl⟩
  · unfold gjk; rw [hb, hov]; rfl
  · unfold sat; rw [hb, hov]; rfl

/-- Witness for C9 at the two separated unit squares under the default
configuration. -/
theorem broadPhase_reject_witness :
    gjk mcosW msinW squareAt0 squareAt3 defaultConfig =
      ⟨false, ["Broad-phase: No AABB overlap"], none⟩ ∧
    sat mcosW msinW squareAt0 squareAt3 defaultConfig =
      ⟨false, ["Broad-phase: No AABB overlap"], none⟩ ∧
    (∀ b, linCanny mcosW msinW squareAt0 squareAt3 { defaultConfig with useBroadPhase := b } =
      linCanny mcosW msinW squareAt0 squareAt3 defaultConfig) ∧
    (∀ b, vClip mcosW msinW squareAt0 squareAt3 { defaultConfig with useBroadPhase := b } =
      vClip mcosW msinW squareAt0 squareAt3 defaultConfig) :=
  broadPhase_reject mcosW msinW squareAt0 squareAt3 defaultConfig rfl
    (by with_unfolding_all decide)

/-- Helper: the GJK loop executes at most `fuel` iterations. -/
theorem gjkLoopStats_fst_le (points1 points2 : List Vec) :
    ∀ (fuel : ℕ) (simplex : List Vec) (dir : Vec),
      (gjkLoopStats points1 points2 fuel simplex dir).1 ≤ fuel := by
  intro fuel
  induction fuel with
  | zero => intro s d; simp [gjkLoopStats]
  | succ n ih =>
    intro s d
    unfold gjkLoopStats
    dsimp only
    by_cases hdot : (getSupport points1 points2 d).dot d ≤ 0
    · rw [if_pos hdot]
      simp
    · rw [if_neg hdot]
      rcases hh : handleSimplex defaultConfig (s ++ [getSupport points1 points2 d]) d
        with ⟨b, simplex2, dir2⟩
      cases b
      · simpa using Nat.succ_le_succ (ih _ _)
      · simp

/-- Helper: when the GJK loop exhausts its budget, it returns the defined
non-collision result whose last trace entry is `Max iterations reached`. -/
theorem gjkLoop_cap_false (points1 points2 : List Vec) (config : CollisionConfig) :
    ∀ (fuel : ℕ) (simplex : List Vec) (dir : Vec) (debug : List String),
      (gjkLoopStats points1 points2 fuel simplex dir).2 = true →
      (gjkLoop points1 points2 config fuel simplex dir debug).colliding = false ∧
      (gjkLoop points1 points2 config fuel simplex dir debug).debug.getLast? =
        some "Max iterations reached" := by
  intro fuel
  induction fuel with
  | zero =>
    intro s d debug _
    refine ⟨rfl, ?_⟩
    simp [gjkLoop, List.getLast?_concat]
  | succ n ih =>
    intro s d debug hcap
    unfold gjkLoopStats at hcap
    unfold gjkLoop
    dsimp only at hcap ⊢
    by_cases hdot : (getSupport points1 points2 d).dot d ≤ 0
    · rw [if_pos hdot] at hcap
      simp at hcap
    · rw [if_neg hdot] at hcap
      rw [if_neg hdot]
      rcases hh : handleSimplex defaultConfig (s ++ [getSupport points1 points2 d]) d
        with ⟨b, simplex2, dir2⟩
      rw [hh] at hcap
      cases b
      · exact ih _ _ _ (by simpa using hcap)
      · simp at hcap

/-- C4: for every pair of shapes with non-empty vertex lists and every
configuration, `gjk`'s loop runs at most `maxIterations` iterations, and
when the iteration budget is exhausted the function returns the defined
result `colliding = false` (with the `Max iterations reached` trace) rather
than failing. -/
theorem gjk_iteration_bound (mcos msin : ℚ → ℚ) (shapeA shapeB : Shape)
    (config : CollisionConfig) (_hA : shapeA.points ≠ []) (_hB : shapeB.points ≠ []) :
    gjkIterations mcos msin shapeA shapeB config ≤ config.maxIterations ∧
    (gjkHitsCap mcos msin shapeA shapeB config = true →
      (gjk mcos msin shapeA shapeB config).colliding = false ∧
      (gjk mcos msin shapeA shapeB config).debug.getLast? =
        some "Max iterations reached") := by
  by_cases h : (config.useBroadPhase &&
      !aabbOverlap (computeAABB mcos msin shapeA) (computeAABB mcos msin shapeB)) = true
  · constructor
    · unfold gjkIterations
      rw [if_pos h]
      exact Nat.zero_le _
    · intro hcap
      unfold gjkHitsCap at hcap
      rw [if_pos h] at hcap
      exact absurd hcap (by simp)
  · constructor
    · unfold gjkIterations
      rw [if_neg h]
      exact gjkLoopStats_fst_le _ _ _ _ _
    · intro hcap
      unfold gjkHitsCap at hcap
      rw [if_neg h] at hcap
      unfold gjk gjkCore
      rw [if_neg h]
      exact gjkLoop_cap_false _ _ _ _ _ _ _ hcap

/-- Witness for C4 at the two separated unit squares under the default
configuration. -/
theorem gjk_iteration_bound_witness :
    gjkIterations mcosW msinW squareAt0 squareAt3 defaultConfig ≤
      defaultConfig.maxIterations ∧
    (gjkHitsCap mcosW msinW squareAt0 squareAt3 defaultConfig = true →
      (gjk mcosW msinW squareAt0 squareAt3 defaultConfig).colliding = false ∧
      (gjk mcosW msinW squareAt0 squareAt3 defaultConfig).debug.getLast? =
        some "Max iterations reached") :=
  gjk_iteration_bound mcosW msinW squareAt0 squareAt3 defaultConfig
    (by with_unfolding_all decide) (by with_unfolding_all decide)

/-- Helper: at rotation 0 the transform is a pure translation. -/
theorem transform_rot0 (mcos msin : ℚ → ℚ) (h1 : mcos 0 = 1) (h2 : msin 0 = 0)
    (shape : Shape) (hrot : shape.rotation = 0) :
    transformPoints mcos msin shape =
      shape.points.map fun p => p.add shape.position := by
  simp only [transformPoints, Vec.add, hrot, h1, h2, mul_one, mul_zero, sub_zero,
    zero_add]

set_option maxRecDepth 1000000 in
/-- C1: on the two axis-aligned unit squares centred at (0,0) and (3,0)
(rotation 0, default configuration), `gjk`, `sat` and `vClip` report no
collision, but `linCanny` reports a collision: its vertex-edge scan treats
the far squares' vertices as penetrating (signed distance −3 against the
facing edge's normalised normal line), so the claim "every one of the four
detectors returns colliding = false" fails on `linCanny` — the spec's
stated expectation is violated by the code. -/
theorem c1_separated_squares_eval (mcos msin : ℚ → ℚ) (h1 : mcos 0 = 1)
    (h2 : msin 0 = 0) :
    (gjk mcos msin squareAt0 squareAt3 defaultConfig).colliding = false ∧
    (sat mcos msin squareAt0 squareAt3 defaultConfig).colliding = false ∧
    (vClip mcos msin squareAt0 squareAt3 defaultConfig).colliding = false ∧
    (linCanny mcos msin squareAt0 squareAt3 defaultConfig).colliding = true := by
  have e0 : transformPoints mcos msin squareAt0 = sqPts0 := by
    rw [transform_rot0 mcos msin h1 h2 squareAt0 rfl]
    with_unfolding_all decide
  have e3 : transformPoints mcos msin squareAt3 = sqPts3 := by
    rw [transform_rot0 mcos msin h1 h2 squareAt3 rfl]
    with_unfolding_all decide
  refine ⟨?_, ?_, ?_, ?_⟩
  · unfold gjk computeAABB
    rw [e0, e3]
    with_unfolding_all decide
  · unfold sat computeAABB
    rw [e0, e3]
    with_unfolding_all decide
  · unfold vClip
    rw [e0, e3]
    with_unfolding_all decide
  · unfold linCanny
    rw [e0, e3]
    with_unfolding_all decide

/-- Witness for C1's evaluation at concrete trig functions. -/
theorem c1_separated_squares_eval_witness :
    (gjk mcosW msinW squareAt0 squareAt3 defaultConfig).colliding = false ∧
    (sat mcosW msinW squareAt0 squareAt3 defaultConfig).colliding = false ∧
    (vClip mcosW msinW squareAt0 squareAt3 defaultConfig).colliding = false ∧
    (linCanny mcosW msinW squareAt0 squareAt3 defaultConfig).colliding = true :=
  c1_separated_squares_eval mcosW msinW rfl rfl

/-- Helper: `vClip`'s ray-crossing test coincides with `linCanny`'s. -/
theorem containsPoint_eq_isInside (p : Vec) (polygon : List Vec) :
    containsPoint p polygon = isInside p polygon := rfl

/-- C6: when every vertex of the first polygon lies inside the second
(point-in-polygon, even-odd rule), both `linCanny` and `vClip` take the
containment branch: separation distance 0 (`-Infinity` signed), verdict
`colliding = true` (for any positive threshold), regardless of any
vertex-edge distances — the containment result takes precedence. -/
theorem containment_precedence (points1 points2 : List Vec)
    (config : CollisionConfig) (hne : points1 ≠ [])
    (hin : ∀ p ∈ points1, isInside p points2 = true)
    (ht : 0 < config.collisionThreshold) :
    (linCannyClosest points1 points2 config).distance = SDist.sq 0 ∧
    (linCannyClosest points1 points2 config).type = "Containment" ∧
    (linCannyCore points1 points2 config).colliding = true ∧
    (vClipClosest points1 points2 config).distance = SDist.sq 0 ∧
    (vClipCore points1 points2 config).colliding = true := by
  have hfilter : points1.filter (fun p => isInside p points2) = points1 :=
    List.filter_eq_self.mpr (by simpa using hin)
  have hlen : (linCannyContained points1 points2).length > 0 := by
    unfold linCannyContained
    rw [hfilter]
    rcases points1 with _ | ⟨p, ps⟩
    · exact absurd rfl hne
    · simp
  have hclosest : linCannyClosest points1 points2 config =
      { distance := .sq 0
        signedDistance := .negInf
        point := (linCannyContained points1 points2).head?
        type := "Containment" } := by
    unfold linCannyClosest
    dsimp only
    rw [if_pos hlen]
    simp
  have hany : (points1.any fun p => containsPoint p points2) = true := by
    rcases points1 with _ | ⟨p, ps⟩
    · exact absurd rfl hne
    · simp only [List.any_eq_true]
      exact ⟨p, List.mem_cons_self p ps,
        by rw [containsPoint_eq_isInside]; exact hin p (List.mem_cons_self p ps)⟩
  have hvc : vClipClosest points1 points2 config =
      { distance := .sq 0
        point := some (findClosestPoint points1 points2 config)
        type := "Containment (ShapeA in ShapeB)" } := by
    unfold vClipClosest vcContainment
    rw [if_pos hany]
  refine ⟨?_, ?_, ?_, ?_, ?_⟩
  · rw [hclosest]
  · rw [hclosest]
  · unfold linCannyCore
    rw [hclosest]
    rfl
  · rw [hvc]
  · unfold vClipCore
    rw [hvc]
    show SDist.bltQ (.sq 0) config.collisionThreshold = true
    unfold SDist.bltQ sqrtLt
    simp [ht, mul_pos ht ht]

/-- Witness for C6: the unit square inside the `[-2,2]²` square. -/
theorem containment_precedence_witness :
    (linCannyClosest sqPts0 bigSquare.points defaultConfig).distance = SDist.sq 0 ∧
    (linCannyClosest sqPts0 bigSquare.points defaultConfig).type = "Containment" ∧
    (linCannyCore sqPts0 bigSquare.points defaultConfig).colliding = true ∧
    (vClipClosest sqPts0 bigSquare.points defaultConfig).distance = SDist.sq 0 ∧
    (vClipCore sqPts0 bigSquare.points defaultConfig).colliding = true :=
  containment_precedence sqPts0 bigSquare.points defaultConfig
    (by with_unfolding_all decide) (by with_unfolding_all decide)
    (by with_unfolding_all decide)

/-- Helper: reaching an axis with strictly separated projections, after
axes that all overlapped, makes `satLoop` return the gap result at once —
the remaining axes after the gap axis do not influence the result at all. -/
theorem satLoop_gap_result (points1 points2 : List Vec) (config : CollisionConfig) :
    ∀ (pre : List Vec) (axis : Vec) (post : List Vec) (mo : SRVal)
      (cp : Option Vec) (debug : List String),
      (∀ a ∈ pre, ¬ axGap points1 points2 a) → axGap points1 points2 axis →
      satLoop points1 points2 config (pre ++ axis :: post) mo cp debug =
        { colliding := false, debug := debug ++ ["Gap found - no collision"],
          collisionPoint := none } := by
  intro pre
  induction pre with
  | nil =>
    intro axis post mo cp debug _ hgap
    unfold axGap at hgap
    rw [List.nil_append]
    unfold satLoop
    dsimp only
    rw [if_pos hgap]
  | cons a pre ih =>
    intro axis post mo cp debug hpre hgap
    have ha := hpre a (List.mem_cons_self a pre)
    unfold axGap at ha
    rw [List.cons_append]
    unfold satLoop
    dsimp only
    rw [if_neg ha]
    split
    · exact ih axis post _ _ debug (fun x hx => hpre x (List.mem_cons_of_mem a hx)) hgap
    · exact ih axis post _ _ debug (fun x hx => hpre x (List.mem_cons_of_mem a hx)) hgap

/-- Helper: when no axis separates the projections, `satLoop` runs through
the whole axis list and declares a collision. -/
theorem satLoop_noGap_true (points1 points2 : List Vec) (config : CollisionConfig) :
    ∀ (axes : List Vec) (mo : SRVal) (cp : Option Vec) (debug : List String),
      (∀ a ∈ axes, ¬ axGap points1 points2 a) →
      (satLoop points1 points2 config axes mo cp debug).colliding = true := by
  intro axes
  induction axes with
  | nil => intro mo cp debug _; rfl
  | cons a axes ih =>
    intro mo cp debug hax
    have ha := hax a (List.mem_cons_self a axes)
    unfold axGap at ha
    unfold satLoop
    dsimp only
    rw [if_neg ha]
    split
    · exact ih _ _ debug fun x hx => hax x (List.mem_cons_of_mem a hx)
    · exact ih _ _ debug fun x hx => hax x (List.mem_cons_of_mem a hx)

/-- Helper: an axis with strictly separated projections anywhere in the
list makes `satLoop` return `colliding = false`. -/
theorem satLoop_exGap_false (points1 points2 : List Vec) (config : CollisionConfig) :
    ∀ (axes : List Vec) (mo : SRVal) (cp : Option Vec) (debug : List String),
      (∃ ax ∈ axes, axGap points1 points2 ax) →
      (satLoop points1 points2 config axes mo cp debug).colliding = false := by
  intro axes
  induction axes with
  | nil => rintro mo cp debug ⟨ax, hax, _⟩; exact absurd hax (List.not_mem_nil ax)
  | cons a axes ih =>
    rintro mo cp debug ⟨ax, hax, hgap⟩
    unfold satLoop
    dsimp only
    by_cases ha : axGap points1 points2 a
    · unfold axGap at ha
      rw [if_pos ha]
    · have ha' := ha
      unfold axGap at ha'
      rw [if_neg ha']
      have hax' : ax ∈ axes := by
        rcases List.mem_cons.mp hax with rfl | h
        · exact absurd hgap ha
        · exact h
      split
      · exact ih _ _ debug ⟨ax, hax', hgap⟩
      · exact ih _ _ debug ⟨ax, hax', hgap⟩

/-- C3: `sat`'s axis phase: a strictly separating candidate axis produces
`colliding = false` immediately — the loop's answer is already fixed
whatever axes would remain (first conjunct: the result does not mention the
axes after the gap axis) — and `sat` then answers `false` (second
conjunct, which holds whether the gap is met in the loop or the pair was
already rejected by the broad phase); when every candidate axis's
projection intervals overlap, `sat` answers `true` (third conjunct; the
broad phase must let the pair through, which holds for every genuinely
all-axes-overlapping convex polygon pair). -/
theorem sat_separating_axis (mcos msin : ℚ → ℚ) (shapeA shapeB : Shape)
    (config : CollisionConfig) :
    (∀ (pre : List Vec) (axis : Vec) (post : List Vec) (mo : SRVal)
       (cp : Option Vec) (debug : List String),
       (∀ a ∈ pre, ¬ axGap (transformPoints mcos msin shapeA)
          (transformPoints mcos msin shapeB) a) →
       axGap (transformPoints mcos msin shapeA) (transformPoints mcos msin shapeB) axis →
       satLoop (transformPoints mcos msin shapeA) (transformPoints mcos msin shapeB)
          config (pre ++ axis :: post) mo cp debug =
         { colliding := false, debug := debug ++ ["Gap found - no collision"],
           collisionPoint := none }) ∧
    ((∃ ax ∈ getAxes (transformPoints mcos msin shapeA) ++
        getAxes (transformPoints mcos msin shapeB),
        axGap (transformPoints mcos msin shapeA) (transformPoints mcos msin shapeB) ax) →
      (sat mcos msin shapeA shapeB config).colliding = false) ∧
    ((∀ ax ∈ getAxes (transformPoints mcos msin shapeA) ++
        getAxes (transformPoints mcos msin shapeB),
        ¬ axGap (transformPoints mcos msin shapeA) (transformPoints mcos msin shapeB) ax) →
      (config.useBroadPhase = true →
        aabbOverlap (computeAABB mcos msin shapeA) (computeAABB mcos msin shapeB) = true) →
      (sat mcos msin shapeA shapeB config).colliding = true) := by
  refine ⟨satLoop_gap_result _ _ config, ?_, ?_⟩
  · intro hex
    unfold sat
    by_cases h : (config.useBroadPhase &&
        !aabbOverlap (computeAABB mcos msin shapeA) (computeAABB mcos msin shapeB)) = true
    · rw [if_pos h]
    · rw [if_neg h]
      exact satLoop_exGap_false _ _ config _ _ _ _ hex
  · intro hall hbp
    unfold sat
    have h : (config.useBroadPhase &&
        !aabbOverlap (computeAABB mcos msin shapeA) (computeAABB mcos msin shapeB)) = false := by
      rcases hu : config.useBroadPhase with _ | _
      · rfl
      · rw [hbp hu]; rfl
    rw [h]
    simp only [Bool.false_eq_true, if_false]
    exact satLoop_noGap_true _ _ config _ _ _ _ hall

/-- Witness for C3 at concrete pairs: the separated squares meet a gap axis
(`colliding = false`), the overlapping squares have no gap on any axis
(`colliding = true`). -/
theorem sat_separating_axis_witness :
    (sat mcosW msinW squareAt0 squareAt3 defaultConfig).colliding = false ∧
    (sat mcosW msinW squareAt0 squareAtHalf defaultConfig).colliding = true :=
  ⟨(sat_separating_axis mcosW msinW squareAt0 squareAt3 defaultConfig).2.1
      (by with_unfolding_all decide),
   (sat_separating_axis mcosW msinW squareAt0 squareAtHalf defaultConfig).2.2
      (by with_unfolding_all decide) (by with_unfolding_all decide)⟩

/-- Helper: `project`'s lower end never exceeds its upper end. -/
theorem project_min_le_max (points : List Vec) (axis : Vec) :
    (project points axis).min ≤ (project points axis).max := by
  have step : ∀ (l : List Vec) (pr : Projection), pr.min ≤ pr.max →
      (l.foldl (fun pr p =>
        let projection := p.dot axis
        let pr1 :=
          if projection < pr.min then { pr with min := projection, minPoint := p }
          else pr
        if projection > pr1.max then { pr1 with max := projection, maxPoint := p }
        else pr1) pr).min ≤
      (l.foldl (fun pr p =>
        let projection := p.dot axis
        let pr1 :=
          if projection < pr.min then { pr with min := projection, minPoint := p }
          else pr
        if projection > pr1.max then { pr1 with max := projection, maxPoint := p }
        else pr1) pr).max := by
    intro l
    induction l with
    | nil => intro pr h; exact h
    | cons q l ih =>
      intro pr h
      rw [List.foldl_cons]
      refine ih _ ?_
      dsimp only
      by_cases h1 : q.dot axis < pr.min
      · rw [if_pos h1]
        by_cases h2 : q.dot axis > pr.max
        · rw [if_pos h2]
        · rw [if_neg h2]
          exact le_of_not_lt h2
      · rw [if_neg h1]
        by_cases h2 : q.dot axis > pr.max
        · rw [if_pos h2]
          exact le_trans h (le_of_lt h2)
        · rw [if_neg h2]
          exact h
  unfold project
  refine step points.tail _ ?_
  exact le_rfl

/-- C10: the gap test uses strict `<`, so when on every candidate axis the
two projection intervals merely touch (one's `max` equals the other's
`min`), no axis separates and `sat` reports the boundary contact as a
collision. -/
theorem sat_touching_counts (mcos msin : ℚ → ℚ) (shapeA shapeB : Shape)
    (config : CollisionConfig)
    (htouch : ∀ ax ∈ getAxes (transformPoints mcos msin shapeA) ++
        getAxes (transformPoints mcos msin shapeB),
        (project (transformPoints mcos msin shapeA) ax).max =
          (project (transformPoints mcos msin shapeB) ax).min ∨
        (project (transformPoints mcos msin shapeB) ax).max =
          (project (transformPoints mcos msin shapeA) ax).min)
    (hbp : config.useBroadPhase = true →
      aabbOverlap (computeAABB mcos msin shapeA) (computeAABB mcos msin shapeB) = true) :
    (sat mcos msin shapeA shapeB config).colliding = true := by
  unfold sat
  have h : (config.useBroadPhase &&
      !aabbOverlap (computeAABB mcos msin shapeA) (computeAABB mcos msin shapeB)) = false := by
    rcases hu : config.useBroadPhase with _ | _
    · rfl
    · rw [hbp hu]; rfl
  rw [h]
  simp only [Bool.false_eq_true, if_false]
  apply satLoop_noGap_true
  intro ax hax
  have h1 := project_min_le_max (transformPoints mcos msin shapeA) ax
  have h2 := project_min_le_max (transformPoints mcos msin shapeB) ax
  rcases htouch ax hax with heq | heq
  · rintro (hlt | hlt)
    · rw [heq] at hlt
      exact lt_irrefl _ hlt
    · have hle : (project (transformPoints mcos msin shapeA) ax).min ≤
          (project (transformPoints mcos msin shapeB) ax).max :=
        le_trans (heq ▸ h1) h2
      exact absurd hlt (not_lt.mpr hle)
  · rintro (hlt | hlt)
    · have hle : (project (transformPoints mcos msin shapeB) ax).min ≤
          (project (transformPoints mcos msin shapeA) ax).max :=
        le_trans (heq ▸ h2) h1
      exact absurd hlt (not_lt.mpr hle)
    · rw [heq] at hlt
      exact lt_irrefl _ hlt

/-- Witness for C10: two unit squares sharing exactly the corner `(1,1)`;
their projections touch on every candidate axis and `sat` reports
collision. -/
theorem sat_touching_counts_witness :
    (sat mcosW msinW cornerSqA cornerSqB defaultConfig).colliding = true :=
  sat_touching_counts mcosW msinW cornerSqA cornerSqB defaultConfig
    (by with_unfolding_all decide) (by with_unfolding_all decide)

/-- Helper: AABB overlap is symmetric. -/
theorem aabbOverlap_comm (a b : AABB) : aabbOverlap a b = aabbOverlap b a := by
  rw [Bool.eq_iff_iff]
  unfold aabbOverlap
  simp only [Bool.and_eq_true, decide_eq_true_eq, ge_iff_le]
  tauto

/-- Helper: every pair the sweep emits has overlapping AABBs (the pair test
is the guard of the emission). -/
theorem sweep_sound (mcos msin : ℚ → ℚ) :
    ∀ (l active : List Interval) (p : Shape × Shape), p ∈ sweep mcos msin active l →
      aabbOverlap (computeAABB mcos msin p.1) (computeAABB mcos msin p.2) = true := by
  intro l
  induction l with
  | nil => intro active p hp; exact absurd hp (List.not_mem_nil p)
  | cons c rest ih =>
    intro active p hp
    unfold sweep at hp
    dsimp only at hp
    rw [List.mem_append] at hp
    rcases hp with hp | hp
    · rw [List.mem_filterMap] at hp
      rcases hp with ⟨o, _, heq⟩
      by_cases hov : aabbOverlap (computeAABB mcos msin c.shape)
          (computeAABB mcos msin o.shape) = true
      · rw [if_pos hov] at heq
        cases heq
        exact hov
      · rw [if_neg hov] at heq
        cases heq
    · exact ih _ p hp

/-- Helper: the first conjunct of an AABB overlap — the left box starts
before the right box ends on the x-axis. -/
theorem aabbOverlap_minX_le (a b : AABB) (h : aabbOverlap a b = true) :
    a.minX ≤ b.maxX := by
  unfold aabbOverlap at h
  simp only [Bool.and_eq_true, decide_eq_true_eq] at h
  exact h.1.1.1

/-- Helper: the sweep finds every overlapping pair: if `o` is already
active (or occurs before `c` in the still-unswept, sorted tail) and the two
AABBs overlap, the pair `(c.shape, o.shape)` is emitted.  Sortedness by
`minX` is what guarantees `o` survives every eviction up to `c`'s turn:
overlap forces `c.minX ≤ o.maxX`, and all eviction thresholds before `c`
are at most `c.minX`. -/
theorem sweep_complete (mcos msin : ℚ → ℚ) :
    ∀ (l active : List Interval),
      l.Sorted intervalLE →
      (∀ iv ∈ active, IvWF mcos msin iv) →
      (∀ iv ∈ l, IvWF mcos msin iv) →
      ∀ (o c : Interval),
        ((o ∈ active ∧ c ∈ l) ∨ (∃ l1 l2, l = l1 ++ o :: l2 ∧ c ∈ l2)) →
        aabbOverlap (computeAABB mcos msin c.shape)
          (computeAABB mcos msin o.shape) = true →
        (c.shape, o.shape) ∈ sweep mcos msin active l := by
  intro l
  induction l with
  | nil =>
    intro active _ _ _ o c hpos _
    rcases hpos with ⟨_, hc⟩ | ⟨l1, l2, hsplit, _⟩
    · exact absurd hc (List.not_mem_nil c)
    · rcases l1 with _ | ⟨x, l1⟩ <;> simp at hsplit
  | cons h t ih =>
    intro active hsort hactive hl o c hpos hov
    rw [List.sorted_cons] at hsort
    obtain ⟨hle, hsort'⟩ := hsort
    have hhwf : IvWF mcos msin h := hl h (List.mem_cons_self h t)
    have hsurv : ∀ iv : Interval, IvWF mcos msin iv →
        h.minX ≤ (computeAABB mcos msin iv.shape).maxX →
        (!decide (iv.maxX < h.minX)) = true := by
      intro iv hwf hbound
      rw [hwf.2]
      simp only [Bool.not_eq_true', decide_eq_false_iff_not, not_lt]
      exact hbound
    unfold sweep
    dsimp only
    rw [List.mem_append]
    rcases hpos with ⟨ho, hc⟩ | ⟨l1, l2, hsplit, hc2⟩
    · rcases List.mem_cons.mp hc with rfl | hct
      · left
        rw [List.mem_filterMap]
        refine ⟨o, ?_, ?_⟩
        · rw [List.mem_filter]
          refine ⟨ho, hsurv o (hactive o ho) ?_⟩
          have h1 := aabbOverlap_minX_le _ _ hov
          rw [← hhwf.1] at h1
          exact h1
        · rw [if_pos hov]
      · right
        have hcwf : IvWF mcos msin c := hl c (List.mem_cons_of_mem h hct)
        have hbound : h.minX ≤ (computeAABB mcos msin o.shape).maxX := by
          have h1 := aabbOverlap_minX_le _ _ hov
          have h2 : h.minX ≤ c.minX := hle c hct
          rw [hcwf.1] at h2
          exact le_trans h2 h1
        refine ih _ hsort' ?_ (fun iv hiv => hl iv (List.mem_cons_of_mem h hiv))
          o c (Or.inl ⟨?_, hct⟩) hov
        · intro iv hiv
          rcases List.mem_append.mp hiv with hiv | hiv
          · exact hactive iv (List.mem_filter.mp hiv).1
          · rw [List.mem_singleton.mp hiv]
            exact hhwf
        · refine List.mem_append_left _ ?_
          rw [List.mem_filter]
          exact ⟨ho, hsurv o (hactive o ho) hbound⟩
    · rcases l1 with _ | ⟨x, l1⟩
      · rw [List.nil_append] at hsplit
        injection hsplit with heq1 heq2
        obtain rfl : h = o := heq1
        subst heq2
        right
        refine ih _ hsort' ?_ (fun iv hiv => hl iv (List.mem_cons_of_mem h hiv))
          h c (Or.inl ⟨List.mem_append_right _ (List.mem_singleton.mpr rfl), hc2⟩) hov
        intro iv hiv
        rcases List.mem_append.mp hiv with hiv | hiv
        · exact hactive iv (List.mem_filter.mp hiv).1
        · rw [List.mem_singleton.mp hiv]
          exact hhwf
      · rw [List.cons_append] at hsplit
        injection hsplit with heq1 heq2
        subst heq1
        right
        refine ih _ hsort' ?_ (fun iv hiv => hl iv (List.mem_cons_of_mem h hiv))
          o c (Or.inr ⟨l1, l2, heq2, hc2⟩) hov
        intro iv hiv
        rcases List.mem_append.mp hiv with hiv | hiv
        · exact hactive iv (List.mem_filter.mp hiv).1
        · rw [List.mem_singleton.mp hiv]
          exact hhwf

/-- Helper: two membership slots in a list (distinct values, or one value
with multiplicity at least two) can be ordered: one occurrence strictly
precedes the other. -/
theorem split_pair_of_mem {α : Type} [DecidableEq α] :
    ∀ (l : List α) (a b : α), a ∈ l → b ∈ l → (a = b → 2 ≤ l.count a) →
      (∃ l1 l2, l = l1 ++ a :: l2 ∧ b ∈ l2) ∨
      (∃ l1 l2, l = l1 ++ b :: l2 ∧ a ∈ l2) := by
  intro l
  induction l with
  | nil => intro a b ha _ _; exact absurd ha (List.not_mem_nil a)
  | cons x xs ih =>
    intro a b ha hb hcnt
    by_cases hax : a = x
    · subst hax
      by_cases hbx : b ∈ xs
      · exact Or.inl ⟨[], xs, rfl, hbx⟩
      · have hba : b = a := by
          rcases List.mem_cons.mp hb with h | h
          · exact h
          · exact absurd h hbx
        subst hba
        have : 2 ≤ (b :: xs).count b := hcnt rfl
        rw [List.count_cons_self] at this
        have : 1 ≤ xs.count b := by omega
        exact absurd (List.count_pos_iff.mp this) hbx
    · by_cases hbx : b = x
      · subst hbx
        have hax' : a ∈ xs := by
          rcases List.mem_cons.mp ha with h | h
          · exact absurd h hax
          · exact h
        exact Or.inr ⟨[], xs, rfl, hax'⟩
      · have ha' : a ∈ xs := by
          rcases List.mem_cons.mp ha with h | h
          · exact absurd h hax
          · exact h
        have hb' : b ∈ xs := by
          rcases List.mem_cons.mp hb with h | h
          · exact absurd h hbx
          · exact h
        have hcnt' : a = b → 2 ≤ xs.count a := by
          intro hab
          have := hcnt hab
          rw [List.count_cons_of_ne hax] at this
          exact this
        rcases ih a b ha' hb' hcnt' with ⟨l1, l2, heq, hm⟩ | ⟨l1, l2, heq, hm⟩
        · exact Or.inl ⟨x :: l1, l2, by rw [heq, List.cons_append], hm⟩
        · exact Or.inr ⟨x :: l1, l2, by rw [heq, List.cons_append], hm⟩

/-- C7: `SweepAndPrune.getPairs` returns exactly the unordered pairs of
inserted shapes whose AABBs overlap on both axes: every emitted pair
overlaps (first conjunct), every overlapping pair of insertion slots is
emitted in one orientation (second conjunct), zero or one inserted shape
yields no pairs (third conjunct), and on the three shapes with x-intervals
`[0,2]`, `[1,3]`, `[5,7]` it returns exactly one pair, formed of the first
two shapes (fourth conjunct). -/
theorem sweepAndPrune_getPairs (mcos msin : ℚ → ℚ) (shapes : List Shape) :
    (∀ p ∈ getPairs mcos msin (sapInsertAll mcos msin shapes),
       aabbOverlap (computeAABB mcos msin p.1) (computeAABB mcos msin p.2) = true) ∧
    (∀ (l1 l2 l3 : List Shape) (s t : Shape),
       shapes = l1 ++ s :: l2 ++ t :: l3 →
       aabbOverlap (computeAABB mcos msin s) (computeAABB mcos msin t) = true →
       (s, t) ∈ getPairs mcos msin (sapInsertAll mcos msin shapes) ∨
       (t, s) ∈ getPairs mcos msin (sapInsertAll mcos msin shapes)) ∧
    (shapes.length ≤ 1 → getPairs mcos msin (sapInsertAll mcos msin shapes) = []) ∧
    getPairs mcosW msinW
        (sapInsertAll mcosW msinW [sapShape02, sapShape13, sapShape57]) =
      [(sapShape13, sapShape02)] := by
  refine ⟨?_, ?_, ?_, by with_unfolding_all decide⟩
  · intro p hp
    exact sweep_sound mcos msin _ _ p hp
  · intro l1 l2 l3 s t hsplit hov
    have hmem : ∀ x ∈ sapInsertAll mcos msin shapes, IvWF mcos msin x := by
      intro x hx
      unfold sapInsertAll at hx
      rw [List.mem_map] at hx
      obtain ⟨y, _, rfl⟩ := hx
      exact ⟨rfl, rfl⟩
    set ivS : Interval := ⟨s, (computeAABB mcos msin s).minX, (computeAABB mcos msin s).maxX⟩
      with hivS
    set ivT : Interval := ⟨t, (computeAABB mcos msin t).minX, (computeAABB mcos msin t).maxX⟩
      with hivT
    have hmap : sapInsertAll mcos msin shapes =
        sapInsertAll mcos msin l1 ++ ivS :: (sapInsertAll mcos msin l2 ++
          ivT :: sapInsertAll mcos msin l3) := by
      unfold sapInsertAll
      rw [hsplit]
      simp [List.map_append]
    set L := List.insertionSort intervalLE (sapInsertAll mcos msin shapes) with hL
    have hperm : L.Perm (sapInsertAll mcos msin shapes) :=
      List.perm_insertionSort intervalLE _
    have hLsort : L.Sorted intervalLE := List.sorted_insertionSort intervalLE _
    have hLwf : ∀ x ∈ L, IvWF mcos msin x := fun x hx => hmem x (hperm.mem_iff.mp hx)
    have hSmem : ivS ∈ L := hperm.mem_iff.mpr (by rw [hmap]; simp)
    have hTmem : ivT ∈ L := hperm.mem_iff.mpr (by rw [hmap]; simp)
    have hcnt : ivS = ivT → 2 ≤ L.count ivS := by
      intro hST
      rw [hperm.count_eq, hmap, List.count_append, List.count_cons_self,
        List.count_append, List.count_cons]
      simp only [hST, beq_self_eq_true, if_true]
      omega
    have hovST : aabbOverlap (computeAABB mcos msin ivT.shape)
        (computeAABB mcos msin ivS.shape) = true := by
      rw [aabbOverlap_comm]; exact hov
    have hovTS : aabbOverlap (computeAABB mcos msin ivS.shape)
        (computeAABB mcos msin ivT.shape) = true := hov
    rcases split_pair_of_mem L ivS ivT hSmem hTmem hcnt with
      ⟨m1, m2, hLeq, hm⟩ | ⟨m1, m2, hLeq, hm⟩
    · -- ivS before ivT: the sweep emits (t, s)
      right
      unfold getPairs
      rw [← hL, hLeq]
      exact sweep_complete mcos msin _ [] (hLeq ▸ hLsort)
        (fun iv hiv => absurd hiv (List.not_mem_nil iv))
        (fun iv hiv => hLwf iv (hLeq ▸ hiv)) ivS ivT
        (Or.inr ⟨m1, m2, rfl, hm⟩) hovST
    · -- ivT before ivS: the sweep emits (s, t)
      left
      unfold getPairs
      rw [← hL, hLeq]
      exact sweep_complete mcos msin _ [] (hLeq ▸ hLsort)
        (fun iv hiv => absurd hiv (List.not_mem_nil iv))
        (fun iv hiv => hLwf iv (hLeq ▸ hiv)) ivT ivS
        (Or.inr ⟨m1, m2, rfl, hm⟩) hovTS
  · intro hlen
    rcases shapes with _ | ⟨s, _ | ⟨t, rest⟩⟩
    · rfl
    · rfl
    · simp at hlen

/-- Witness for C7: the completeness conjunct applied at the three concrete
interval shapes, the x-disjoint pair correctly yielding no obligation and
the overlapping pair yielding the emitted pair. -/
theorem sweepAndPrune_getPairs_witness :
    (sapShape02, sapShape13) ∈
        getPairs mcosW msinW (sapInsertAll mcosW msinW [sapShape02, sapShape13, sapShape57]) ∨
    (sapShape13, sapShape02) ∈
        getPairs mcosW msinW (sapInsertAll mcosW msinW [sapShape02, sapShape13, sapShape57]) :=
  (sweepAndPrune_getPairs mcosW msinW [sapShape02, sapShape13, sapShape57]).2.1
    [] [] [sapShape57] sapShape02 sapShape13 rfl (by with_unfolding_all decide)

/-- Helper: `sqrtLt` unfolded to its propositional content. -/
theorem sqrtLt_iff (aSq b : ℚ) : sqrtLt aSq b = true ↔ 0 < b ∧ aSq < b * b := by
  unfold sqrtLt
  simp

/-- Helper: `sqrtLt` is antitone in the squared value. -/
theorem sqrtLt_of_le (d d' t : ℚ) (hle : d ≤ d') (h : sqrtLt d' t = true) :
    sqrtLt d t = true := by
  rw [sqrtLt_iff] at h ⊢
  exact ⟨h.1, lt_of_le_of_lt hle h.2⟩

/-- Helper: squared distance is symmetric. -/
theorem lengthSq_sub_comm (a b : Vec) : (a.sub b).lengthSq = (b.sub a).lengthSq := by
  unfold Vec.sub Vec.lengthSq
  ring

/-- Helper: the `ERat` embedding preserves strict order. -/
theorem ofQ_lt_ofQ (a b : ℚ) : ERat.ofQ a < ERat.ofQ b ↔ a < b := by
  unfold ERat.ofQ
  rw [WithBot.coe_lt_coe, WithTop.coe_lt_coe]

/-- Helper: a `foldr min ⊤` drops below a bound iff some list entry does. -/
theorem foldr_min_lt_iff (l : List ERat) (c : ERat) :
    l.foldr min ⊤ < c ↔ ∃ x ∈ l, x < c := by
  induction l with
  | nil => simp [not_top_lt]
  | cons a l ih => simp [min_lt_iff, ih]

/-- Helper: both endpoints of an `edges` entry are polygon vertices. -/
theorem edges_mem (ps : List Vec) (e : Vec × Vec) (he : e ∈ edges ps) :
    e.1 ∈ ps ∧ e.2 ∈ ps := by
  unfold edges at he
  rw [List.mem_map] at he
  obtain ⟨j, hj, rfl⟩ := he
  rw [List.mem_range] at hj
  have hlen : 0 < ps.length := lt_of_le_of_lt (Nat.zero_le j) hj
  constructor
  · rw [List.getD_eq_getElem _ _ hj]
    exact List.getElem_mem _
  · have hj2 : (j + 1) % ps.length < ps.length := Nat.mod_lt _ hlen
    rw [List.getD_eq_getElem _ _ hj2]
    exact List.getElem_mem _

/-- Helper: every vertex starts one of the polygon's edges. -/
theorem mem_edges_fst (ps : List Vec) (w : Vec) (hw : w ∈ ps) :
    ∃ e ∈ edges ps, e.1 = w := by
  obtain ⟨j, hj, rfl⟩ := List.getElem_of_mem hw
  refine ⟨(ps.getD j ⟨0, 0⟩, ps.getD ((j + 1) % ps.length) ⟨0, 0⟩), ?_, ?_⟩
  · unfold edges
    rw [List.mem_map]
    exact ⟨j, List.mem_range.mpr hj, rfl⟩
  · rw [List.getD_eq_getElem _ _ hj]

/-- Helper: clamping the projection parameter to `[0,1]` never moves the
closest point farther from the vertex than the segment's start is: the
squared distance along the segment is a parabola in the parameter whose
value at the clamped parameter is at most its value at `0`. -/
theorem clamp_le_start (v s line : Vec) :
    (v.sub (s.add (line.scale
        (max 0 (min 1 ((v.sub s).dot line / line.lengthSq)))))).lengthSq ≤
      (v.sub s).lengthSq := by
  obtain ⟨vx, vy⟩ := v
  obtain ⟨sx, sy⟩ := s
  obtain ⟨lx, ly⟩ := line
  unfold Vec.sub Vec.add Vec.scale Vec.lengthSq Vec.dot
  dsimp only
  set q := ((vx - sx) * lx + (vy - sy) * ly) / (lx * lx + ly * ly) with hq
  set tc := max 0 (min 1 q) with htc
  have htc0 : 0 ≤ tc := le_max_left 0 _
  have key : 0 ≤ tc * (2 * ((vx - sx) * lx + (vy - sy) * ly) -
      tc * (lx * lx + ly * ly)) := by
    rcases eq_or_lt_of_le
        (add_nonneg (mul_self_nonneg lx) (mul_self_nonneg ly)) with hD0 | hD0
    · have h1 : lx * lx = 0 :=
        le_antisymm (by nlinarith [mul_self_nonneg ly]) (mul_self_nonneg lx)
      have h2 : ly * ly = 0 :=
        le_antisymm (by nlinarith [mul_self_nonneg lx]) (mul_self_nonneg ly)
      have hlx := mul_self_eq_zero.mp h1
      have hly := mul_self_eq_zero.mp h2
      rw [hlx, hly]
      ring_nf
      exact le_rfl
    · have hdot : (vx - sx) * lx + (vy - sy) * ly = q * (lx * lx + ly * ly) := by
        rw [hq]
        field_simp
      have htcq : tc ≤ q ∨ tc = 0 := by
        rcases le_or_lt q 0 with h | h
        · right
          rw [htc, max_eq_left (le_trans (min_le_right 1 q) h)]
        · left
          rw [htc]
          rcases le_or_lt 1 q with h1 | h1
          · rw [min_eq_left h1, max_eq_right zero_le_one]
            exact h1
          · rw [min_eq_right (le_of_lt h1), max_eq_right (le_of_lt h)]
      rcases htcq with h | h
      · have hq0 : 0 ≤ q := le_trans htc0 h
        have h1 : 0 ≤ 2 * q - tc := by linarith
        rw [hdot]
        nlinarith [mul_nonneg (mul_nonneg htc0 h1) (le_of_lt hD0)]
      · rw [h]
        ring_nf
        exact le_rfl
  nlinarith [key]

/-- Helper: `blt` of an absolute distance against the sentinel. -/
theorem blt_sq_inf (d : ℚ) : SDist.blt (.sq d) .inf = true := rfl

/-- Helper: `blt` between two absolute distances compares the squares. -/
theorem blt_sq_sq (d d' : ℚ) : SDist.blt (.sq d) (.sq d') = decide (d < d') := rfl

/-- Helper: the sentinel is below no threshold. -/
theorem bltQ_inf (t : ℚ) : SDist.bltQ .inf t = false := rfl

/-- Helper: an absolute distance is below the threshold iff its square is
below the squared threshold. -/
theorem bltQ_sq (d t : ℚ) : SDist.bltQ (.sq d) t = sqrtLt d t := rfl

/-- Helper: one `checkPairs` step updates the running distance to the
semantic minimum: its below-threshold test afterwards is the disjunction of
the test before and the new pair's test. -/
theorem vcPairStep_bltQ (config : CollisionConfig) (t : ℚ) (v : Vec)
    (cl : VCClosest) (e : Vec × Vec) (hok : VCok cl) :
    ((vcPairStep config v cl e).distance.bltQ t =
      (cl.distance.bltQ t || sqrtLt (vcPairDistSq config v e) t)) ∧
    VCok (vcPairStep config v cl e) := by
  have hd : vcPairDistSq config v e =
      (v.sub (getClosestPointOnLineSegment v e.1 e.2 config)).lengthSq := rfl
  unfold vcPairStep
  dsimp only
  rcases hok with hinf | ⟨d, hdist⟩
  · rw [hinf, blt_sq_inf, if_pos rfl]
    refine ⟨?_, Or.inr ⟨_, rfl⟩⟩
    rw [bltQ_inf, Bool.false_or, bltQ_sq, hd]
  · rw [hdist, blt_sq_sq]
    by_cases hlt : (v.sub (getClosestPointOnLineSegment v e.1 e.2 config)).lengthSq < d
    · rw [if_pos (by simpa using hlt)]
      refine ⟨?_, Or.inr ⟨_, rfl⟩⟩
      rw [bltQ_sq, bltQ_sq, hd]
      rw [Bool.eq_iff_iff, Bool.or_eq_true]
      constructor
      · exact fun h => Or.inr h
      · rintro (h | h)
        · exact sqrtLt_of_le _ _ _ (le_of_lt hlt) h
        · exact h
    · rw [if_neg (by simpa using hlt)]
      refine ⟨?_, Or.inr ⟨d, hdist⟩⟩
      rw [hdist, bltQ_sq]
      rw [Bool.eq_iff_iff, Bool.or_eq_true]
      constructor
      · exact fun h => Or.inl h
      · rintro (h | h)
        · exact h
        · exact sqrtLt_of_le _ _ _ (by rw [hd]; exact le_of_not_lt hlt) h

/-- Helper: the edge fold of `checkPairs` for one vertex, characterised. -/
theorem vcFold_edges_bltQ (config : CollisionConfig) (t : ℚ) (v : Vec) :
    ∀ (es : List (Vec × Vec)) (cl : VCClosest), VCok cl →
      (((es.foldl (vcPairStep config v) cl).distance.bltQ t = true ↔
        (cl.distance.bltQ t = true ∨
          ∃ e ∈ es, sqrtLt (vcPairDistSq config v e) t = true)) ∧
       VCok (es.foldl (vcPairStep config v) cl)) := by
  intro es
  induction es with
  | nil =>
    intro cl hok
    simp only [List.foldl_nil]
    exact ⟨by simp, hok⟩
  | cons e es ih =>
    intro cl hok
    rw [List.foldl_cons]
    obtain ⟨hstep, hok'⟩ := vcPairStep_bltQ config t v cl e hok
    obtain ⟨hiff, hok''⟩ := ih (vcPairStep config v cl e) hok'
    refine ⟨?_, hok''⟩
    rw [hiff, hstep]
    simp only [Bool.or_eq_true, List.mem_cons]
    constructor
    · rintro ((h | h) | ⟨e', he', h⟩)
      · exact Or.inl h
      · exact Or.inr ⟨e, Or.inl rfl, h⟩
      · exact Or.inr ⟨e', Or.inr he', h⟩
    · rintro (h | ⟨e', (rfl | he'), h⟩)
      · exact Or.inl (Or.inl h)
      · exact Or.inl (Or.inr h)
      · exact Or.inr ⟨e', he', h⟩

/-- Helper: the vertex fold of `checkPairs`, characterised. -/
theorem vcFold_vertices_bltQ (config : CollisionConfig) (t : ℚ)
    (es : List (Vec × Vec)) :
    ∀ (vs : List Vec) (cl : VCClosest), VCok cl →
      (((vs.foldl (fun c v => es.foldl (vcPairStep config v) c) cl).distance.bltQ t
          = true ↔
        (cl.distance.bltQ t = true ∨
          ∃ v ∈ vs, ∃ e ∈ es, sqrtLt (vcPairDistSq config v e) t = true)) ∧
       VCok (vs.foldl (fun c v => es.foldl (vcPairStep config v) c) cl)) := by
  intro vs
  induction vs with
  | nil =>
    intro cl hok
    simp only [List.foldl_nil]
    exact ⟨by simp, hok⟩
  | cons v vs ih =>
    intro cl hok
    rw [List.foldl_cons]
    obtain ⟨hiff1, hok'⟩ := vcFold_edges_bltQ config t v es cl hok
    obtain ⟨hiff2, hok''⟩ := ih (es.foldl (vcPairStep config v) cl) hok'
    refine ⟨?_, hok''⟩
    rw [hiff2, hiff1]
    simp only [List.mem_cons]
    constructor
    · rintro ((h | ⟨e, he, h⟩) | ⟨v', hv', e, he, h⟩)
      · exact Or.inl h
      · exact Or.inr ⟨v, Or.inl rfl, e, he, h⟩
      · exact Or.inr ⟨v', Or.inr hv', e, he, h⟩
    · rintro (h | ⟨v', (rfl | hv'), e, he, h⟩)
      · exact Or.inl (Or.inl h)
      · exact Or.inl (Or.inr ⟨e, he, h⟩)
      · exact Or.inr ⟨v', hv', e, he, h⟩

/-- Helper: `vClip.checkEdges` from the `Infinity` initialiser reports a
distance below the threshold iff some clamped vertex-edge pair, in either
polygon direction, is below it. -/
theorem vcCheckEdges_bltQ (config : CollisionConfig) (points1 points2 : List Vec) :
    ((vcCheckEdges config points1 points2
        ⟨.inf, none, ""⟩).distance.bltQ config.collisionThreshold = true ↔
      ((∃ v ∈ points1, ∃ e ∈ edges points2,
          sqrtLt (vcPairDistSq config v e) config.collisionThreshold = true) ∨
       (∃ v ∈ points2, ∃ e ∈ edges points1,
          sqrtLt (vcPairDistSq config v e) config.collisionThreshold = true))) := by
  unfold vcCheckEdges
  dsimp only
  obtain ⟨hiff1, hok1⟩ := vcFold_vertices_bltQ config config.collisionThreshold
    (edges points2) points1 ⟨.inf, none, ""⟩ (Or.inl rfl)
  obtain ⟨hiff2, _⟩ := vcFold_vertices_bltQ config config.collisionThreshold
    (edges points1) points2 _ hok1
  rw [hiff2, hiff1]
  simp [bltQ_inf]

/-- Helper: on a degenerate edge the code's clamped point is the edge
start, so the pair distance is the vertex-vertex distance to the start. -/
theorem vcPairDistSq_deg (config : CollisionConfig) (v : Vec) (e : Vec × Vec)
    (hdeg : sqrtLt (e.2.sub e.1).lengthSq config.epsilon = true) :
    vcPairDistSq config v e = (v.sub e.1).lengthSq := by
  unfold vcPairDistSq getClosestPointOnLineSegment
  rw [if_pos hdeg]

/-- Helper: on a non-degenerate edge the specification's clamped distance
is exactly the code's pair distance. -/
theorem specVE_nondeg (config : CollisionConfig) (v : Vec) (e : Vec × Vec)
    (hdeg : ¬ sqrtLt (e.2.sub e.1).lengthSq config.epsilon = true) :
    specVertexEdgeSq config v e = some (vcPairDistSq config v e) := by
  unfold specVertexEdgeSq vcPairDistSq getClosestPointOnLineSegment
  rw [if_neg hdeg, if_neg hdeg]

/-- Helper: the code's clamped pair distance never exceeds the distance to
the edge's start vertex. -/
theorem vcPairDistSq_le_start (config : CollisionConfig) (v : Vec) (e : Vec × Vec) :
    vcPairDistSq config v e ≤ (v.sub e.1).lengthSq := by
  unfold vcPairDistSq getClosestPointOnLineSegment
  by_cases hdeg : sqrtLt (e.2.sub e.1).lengthSq config.epsilon = true
  · rw [if_pos hdeg]
  · rw [if_neg hdeg]
    exact clamp_le_start v e.1 (e.2.sub e.1)

/-- Helper: the spec-side "minimum separation below the threshold" holds
iff some entry of its term list is below the threshold. -/
theorem specSepLt_iff_exists (points1 points2 : List Vec) (config : CollisionConfig) :
    specSepLt (specMinSepSq points1 points2 config) config.collisionThreshold ↔
      ∃ q ∈ ((points1.flatMap fun v =>
              (edges points2).filterMap (specVertexEdgeSq config v)) ++
            (points2.flatMap fun v =>
              (edges points1).filterMap (specVertexEdgeSq config v))) ++
            (points1.flatMap fun v => points2.map fun w => (v.sub w).lengthSq),
        sqrtLt q config.collisionThreshold = true := by
  unfold specSepLt specMinSepSq
  dsimp only
  rw [foldr_min_lt_iff]
  constructor
  · rintro ⟨ht, x, hx, hlt⟩
    rw [List.mem_map] at hx
    obtain ⟨q, hq, rfl⟩ := hx
    exact ⟨q, hq, (sqrtLt_iff _ _).mpr ⟨ht, (ofQ_lt_ofQ _ _).mp hlt⟩⟩
  · rintro ⟨q, hq, hlt⟩
    rw [sqrtLt_iff] at hlt
    exact ⟨hlt.1, ERat.ofQ q, List.mem_map_of_mem ERat.ofQ hq,
      (ofQ_lt_ofQ _ _).mpr hlt.2⟩

/-- Helper: the code's below-threshold pairs and the specification's
below-threshold terms determine each other: every code pair distance is a
spec term (its clamped value on a live edge, or the vertex-vertex distance
to the start of a degenerate edge), and every spec term dominates some code
pair distance (vertex-vertex terms dominate the clamped distance on the
edge the vertex starts). -/
theorem code_spec_exists (points1 points2 : List Vec) (config : CollisionConfig) :
    ((∃ v ∈ points1, ∃ e ∈ edges points2,
        sqrtLt (vcPairDistSq config v e) config.collisionThreshold = true) ∨
     (∃ v ∈ points2, ∃ e ∈ edges points1,
        sqrtLt (vcPairDistSq config v e) config.collisionThreshold = true)) ↔
    (∃ q ∈ ((points1.flatMap fun v =>
            (edges points2).filterMap (specVertexEdgeSq config v)) ++
          (points2.flatMap fun v =>
            (edges points1).filterMap (specVertexEdgeSq config v))) ++
          (points1.flatMap fun v => points2.map fun w => (v.sub w).lengthSq),
      sqrtLt q config.collisionThreshold = true) := by
  constructor
  · rintro (⟨v, hv, e, he, h⟩ | ⟨v, hv, e, he, h⟩)
    · by_cases hdeg : sqrtLt (e.2.sub e.1).lengthSq config.epsilon = true
      · refine ⟨(v.sub e.1).lengthSq, ?_, ?_⟩
        · refine List.mem_append_right _ ?_
          rw [List.mem_flatMap]
          exact ⟨v, hv, List.mem_map_of_mem _ (edges_mem points2 e he).1⟩
        · rw [← vcPairDistSq_deg config v e hdeg]
          exact h
      · refine ⟨vcPairDistSq config v e, ?_, h⟩
        refine List.mem_append_left _ (List.mem_append_left _ ?_)
        rw [List.mem_flatMap]
        refine ⟨v, hv, ?_⟩
        rw [List.mem_filterMap]
        exact ⟨e, he, specVE_nondeg config v e hdeg⟩
    · by_cases hdeg : sqrtLt (e.2.sub e.1).lengthSq config.epsilon = true
      · refine ⟨(e.1.sub v).lengthSq, ?_, ?_⟩
        · refine List.mem_append_right _ ?_
          rw [List.mem_flatMap]
          exact ⟨e.1, (edges_mem points1 e he).1, List.mem_map_of_mem _ hv⟩
        · rw [← lengthSq_sub_comm, ← vcPairDistSq_deg config v e hdeg]
          exact h
      · refine ⟨vcPairDistSq config v e, ?_, h⟩
        refine List.mem_append_left _ (List.mem_append_right _ ?_)
        rw [List.mem_flatMap]
        refine ⟨v, hv, ?_⟩
        rw [List.mem_filterMap]
        exact ⟨e, he, specVE_nondeg config v e hdeg⟩
  · rintro ⟨q, hq, h⟩
    rcases List.mem_append.mp hq with hq | hq
    · rcases List.mem_append.mp hq with hq | hq
      · rw [List.mem_flatMap] at hq
        obtain ⟨v, hv, hq⟩ := hq
        rw [List.mem_filterMap] at hq
        obtain ⟨e, he, hfm⟩ := hq
        by_cases hdeg : sqrtLt (e.2.sub e.1).lengthSq config.epsilon = true
        · unfold specVertexEdgeSq at hfm
          rw [if_pos hdeg] at hfm
          cases hfm
        · rw [specVE_nondeg config v e hdeg] at hfm
          injection hfm with hfm
          exact Or.inl ⟨v, hv, e, he, hfm ▸ h⟩
      · rw [List.mem_flatMap] at hq
        obtain ⟨v, hv, hq⟩ := hq
        rw [List.mem_filterMap] at hq
        obtain ⟨e, he, hfm⟩ := hq
        by_cases hdeg : sqrtLt (e.2.sub e.1).lengthSq config.epsilon = true
        · unfold specVertexEdgeSq at hfm
          rw [if_pos hdeg] at hfm
          cases hfm
        · rw [specVE_nondeg config v e hdeg] at hfm
          injection hfm with hfm
          exact Or.inr ⟨v, hv, e, he, hfm ▸ h⟩
    · rw [List.mem_flatMap] at hq
      obtain ⟨v, hv, hq⟩ := hq
      rw [List.mem_map] at hq
      obtain ⟨w, hw, rfl⟩ := hq
      obtain ⟨e, he, hfst⟩ := mem_edges_fst points2 w hw
      refine Or.inl ⟨v, hv, e, he, ?_⟩
      refine sqrtLt_of_le _ _ _ ?_ h
      rw [← hfst]
      exact vcPairDistSq_le_start config v e

/-- C5 (amended): for polygon pairs outside the containment case, `vClip`
returns `colliding = true` iff the minimum separation distance — the
global minimum of the clamped vertex-to-edge distances in both polygon
directions together with the vertex-vertex distances — is strictly below
`collisionThreshold`. -/
theorem vClip_sep_iff (points1 points2 : List Vec) (config : CollisionConfig)
    (hnc1 : (points1.any fun p => containsPoint p points2) = false)
    (hnc2 : (points2.any fun p => containsPoint p points1) = false) :
    (vClipCore points1 points2 config).colliding = true ↔
      specSepLt (specMinSepSq points1 points2 config)
        config.collisionThreshold := by
  have hvc : vClipClosest points1 points2 config =
      vcCheckEdges config points1 points2 ⟨.inf, none, ""⟩ := by
    unfold vClipClosest vcContainment
    rw [hnc1, hnc2]
    rfl
  show (vClipClosest points1 points2 config).distance.bltQ
      config.collisionThreshold = true ↔ _
  rw [hvc, vcCheckEdges_bltQ, code_spec_exists, specSepLt_iff_exists]

/-- Witness for C5's amended theorem at the two separated unit squares. -/
theorem vClip_sep_iff_witness :
    (vClipCore sqPts0 sqPts3 defaultConfig).colliding = true ↔
      specSepLt (specMinSepSq sqPts0 sqPts3 defaultConfig)
        defaultConfig.collisionThreshold :=
  vClip_sep_iff sqPts0 sqPts3 defaultConfig (by with_unfolding_all decide)
    (by with_unfolding_all decide)

set_option maxRecDepth 1000000 in
/-- C5 counterexample: the two separated unit squares are not in the
containment case and their minimum separation (2, squared 4) is far above
the threshold 0.1, yet `linCanny` returns `colliding = true` — the claimed
equivalence fails for `linCanny`, while `vClip` obeys it (previous
theorem). -/
theorem linCanny_sep_iff_counterexample :
    linCannyContained sqPts0 sqPts3 = [] ∧
    specMinSepSq sqPts0 sqPts3 defaultConfig = ERat.ofQ 4 ∧
    ¬ specSepLt (specMinSepSq sqPts0 sqPts3 defaultConfig)
        defaultConfig.collisionThreshold ∧
    (linCannyCore sqPts0 sqPts3 defaultConfig).colliding = true := by
  with_unfolding_all decide

end CollisionQuest
